import Mathlib

/-!
Formal model of the `tstorage-clients` Python client library
(`src/python/src/tstorage_client`) and of the reference mock server
(`src/cpp/libtstorageclient++/tests/pystorage.py`).

Bytes are modelled as `List Nat` (each entry a byte value `< 256` by
construction).  Python `struct` little-endian codecs become explicit
base-256 encoders; Python's unbounded `int` becomes `Int`; Python `//`
and `%` on a positive divisor coincide with Euclidean division, so they
are written `/` and `%` on `Int`; Python `int()` applied to a quotient
truncates toward zero and is written `Int.tdiv`.  Fallible Python code
(raised exceptions) returns `Except PyErr`; `None`-returning fallible
code returns `Option`.
-/

namespace TSC

/-- Exceptions that the modelled Python code can raise. -/
inductive PyErr where
  /-- A `ConnectionError` (including `ConnectionResetError`, `BrokenPipeError`). -/
  | connectionError
  /-- Any other `OSError` (for example a socket timeout). -/
  | osError
  /-- A `struct.error` from `struct.Struct.unpack` on a wrong-sized buffer. -/
  | structError
  /-- A `ValueError` (negative `recv_into` size, mismatched slice assignment). -/
  | valueError
  /-- A failed `assert` statement. -/
  | assertError
  /-- An `IndexError` from subscripting an empty tuple. -/
  | indexError
  deriving DecidableEq, Repr

instance {ε α : Type} [DecidableEq ε] [DecidableEq α] : DecidableEq (Except ε α) := fun x y =>
  match x, y with
  | .ok a, .ok b =>
    if h : a = b then .isTrue (by rw [h]) else .isFalse (fun hc => h (Except.ok.inj hc))
  | .error a, .error b =>
    if h : a = b then .isTrue (by rw [h]) else .isFalse (fun hc => h (Except.error.inj hc))
  | .ok _, .error _ => .isFalse (fun hc => Except.noConfusion hc)
  | .error _, .ok _ => .isFalse (fun hc => Except.noConfusion hc)

/-! ### Little-endian byte codecs (Python `struct`, format `<`) -/

/-- Little-endian base-256 digits of `n`, exactly `w` bytes. -/
def natToLE : Nat → Nat → List Nat
  | 0, _ => []
  | w + 1, n => n % 256 :: natToLE w (n / 256)

/-- Read a little-endian byte list as an unsigned integer. -/
def leToNat : List Nat → Nat
  | [] => 0
  | b :: bs => b + 256 * leToNat bs

/-- Read a little-endian byte list as a two's-complement signed integer. -/
def leToInt (bs : List Nat) : Int :=
  let u := leToNat bs
  if 2 * u < 256 ^ bs.length then (u : Int) else (u : Int) - 256 ^ bs.length

/-- Two's-complement little-endian encoding of `v` in `w` bytes. -/
def intToLE (w : Nat) (v : Int) : List Nat :=
  natToLE w (v % (256 ^ w : Nat)).toNat

/-- Model of `struct.pack` for one signed field of `w` bytes: Python raises
`struct.error` when the value is out of range, so the result is an `Option`. -/
def packInt (w : Nat) (v : Int) : Option (List Nat) :=
  if -(256 ^ w : Int) ≤ 2 * v ∧ 2 * v < (256 ^ w : Int) then some (intToLE w v) else none

/-! ### Python slice and index semantics

`memoryview`/`bytearray` slicing `mv[a:b]` resolves a negative bound by
adding the length, then clamps both bounds into `[0, len]`; a start not
below the stop yields the empty slice. -/

/-- Resolve one Python slice bound against a sequence of length `len`. -/
def pyBound (len : Nat) (i : Int) : Nat :=
  (max 0 (min (if i < 0 then i + len else i) len)).toNat

/-- Python slice `l[a:b]` with integer (possibly negative) bounds. -/
def pySlice (l : List Nat) (a b : Int) : List Nat :=
  (l.take (pyBound l.length b)).drop (pyBound l.length a)

/-- Write the byte list `data` into `l` starting at (already resolved,
non-negative) position `pos`; bytes falling outside `l` are dropped.  This is
the effect of `mv[pos:pos+len(data)] = data` after bounds were validated. -/
def writeBytes (l : List Nat) (pos : Nat) (data : List Nat) : List Nat :=
  match data with
  | [] => l
  | b :: rest => writeBytes (l.set pos b) (pos + 1) rest

/-! ### Client data model (`record.py`, `response.py`, `payload_type.py`) -/

/-- Model of `tstorage_client.record.Key` — five signed integer fields with
dataclass defaults `-1`. -/
structure Key where
  cid : Int := -1
  mid : Int := -1
  moid : Int := -1
  cap : Int := -1
  acq : Int := -1
  deriving DecidableEq, Repr

/-- Source: `Key.valid` — a key is valid iff `cid >= 0`. -/
def Key.valid (k : Key) : Bool := 0 ≤ k.cid

/-- Field ranges accepted by `struct.pack("<iqiqq", ...)`: `i` is a 32-bit and
`q` a 64-bit signed field. -/
def Key.inRange (k : Key) : Prop :=
  -(2 ^ 31) ≤ k.cid ∧ k.cid < 2 ^ 31 ∧
  -(2 ^ 63) ≤ k.mid ∧ k.mid < 2 ^ 63 ∧
  -(2 ^ 31) ≤ k.moid ∧ k.moid < 2 ^ 31 ∧
  -(2 ^ 63) ≤ k.cap ∧ k.cap < 2 ^ 63 ∧
  -(2 ^ 63) ≤ k.acq ∧ k.acq < 2 ^ 63

instance (k : Key) : Decidable k.inRange := by unfold Key.inRange; infer_instance

/-- Source: `Key.to_bytes(with_cid=True, with_acq=True)` =
`struct.pack("<iqiqq", cid, mid, moid, cap, acq)` (32 bytes); `struct.error`
on an out-of-range field is modelled by `none`. -/
def Key.toBytesFull (k : Key) : Option (List Nat) := do
  let a ← packInt 4 k.cid
  let b ← packInt 8 k.mid
  let c ← packInt 4 k.moid
  let d ← packInt 8 k.cap
  let e ← packInt 8 k.acq
  pure (a ++ b ++ c ++ d ++ e)

/-- Source: `Key.to_bytes(with_cid=False, with_acq)` — `"<qiqq"` (28 bytes)
with acq, `"<qiq"` (20 bytes) without. -/
def Key.toBytesRest (k : Key) (withAcq : Bool) : Option (List Nat) := do
  let b ← packInt 8 k.mid
  let c ← packInt 4 k.moid
  let d ← packInt 8 k.cap
  if withAcq then
    let e ← packInt 8 k.acq
    pure (b ++ c ++ d ++ e)
  else
    pure (b ++ c ++ d)

/-- Source: `Key.from_bytes` — `struct.unpack("<iqiqq", data)` (which raises
unless `len(data) = 32`, caught and turned into `None`), then the `valid()`
check: keys with `cid < 0` decode to `None`. -/
def Key.fromBytes (data : List Nat) : Option Key :=
  if data.length = 32 then
    let k : Key :=
      { cid := leToInt (data.take 4)
        mid := leToInt ((data.drop 4).take 8)
        moid := leToInt ((data.drop 12).take 4)
        cap := leToInt ((data.drop 16).take 8)
        acq := leToInt ((data.drop 24).take 8) }
    if k.valid then some k else none
  else none

/-- Model of `tstorage_client.record.Record`. -/
structure Record (T : Type) where
  key : Key
  value : T
  deriving DecidableEq, Repr

/-- Model of the `PayloadType` interface: `to_bytes` is total, `from_bytes`
reports failure as `None`. -/
structure PayloadType (T : Type) where
  toBytes : T → List Nat
  fromBytes : List Nat → Option T

/-- Source: `ResponseStatus` (`response.py`). -/
inductive ResponseStatus where
  | OK
  | ERROR
  | DISCONNECTED
  | BAD_REQUEST
  | UNPARSEABLE_ENTITY
  | NO_MEMORY
  deriving DecidableEq, Repr

/-- Source: `Response` dataclass — just a status. -/
structure Response where
  status : ResponseStatus
  deriving DecidableEq, Repr

/-- Source: `ResponseAcq` dataclass — status plus `acq` with default `-1`. -/
structure ResponseAcq where
  status : ResponseStatus
  acq : Int := -1
  deriving DecidableEq, Repr

/-- Source: `ResponseGet` dataclass — status, `acq` (default `-1`) and the
records parsed so far (default empty). -/
structure ResponseGet (T : Type) where
  status : ResponseStatus
  acq : Int := -1
  data : List (Record T) := []
  deriving DecidableEq, Repr

/-! ### Receive buffer (`_channel_common.py`, class `ReceiveBuffer`)

The backing `bytearray` is a `List Nat` whose length is the capacity; the
two cursors are kept as `Int` because the Python attributes are unbounded
(and, on hostile input, the parser really can drive `current` negative). -/

/-- Model of `ReceiveBuffer`: backing store plus the `current`/`available`
cursors. -/
structure ReceiveBuffer where
  backing : List Nat
  current : Int
  available : Int
  deriving DecidableEq, Repr

/-- Source: `ReceiveBuffer.__init__` — a zero-filled `bytearray` of
`max(initial_capacity, 32)` bytes, both cursors `0`. -/
def mkReceiveBuffer (initialCapacity : Int) : ReceiveBuffer :=
  { backing := List.replicate (max initialCapacity 32).toNat 0
    current := 0
    available := 0 }

/-- Source: `len(self._memory)` — the capacity. -/
def ReceiveBuffer.capacity (b : ReceiveBuffer) : Nat := b.backing.length

/-- Source: `ReceiveBuffer.peek(size, offset)` =
`self._memory[current + offset : min(current + offset + size, available)]`. -/
def ReceiveBuffer.peek (b : ReceiveBuffer) (size : Int) (offset : Int) : List Nat :=
  let position := b.current + offset
  pySlice b.backing position (min (position + size) b.available)

/-- Source: `ReceiveBuffer.increase(size)` — `current += size`. -/
def ReceiveBuffer.increase (b : ReceiveBuffer) (size : Int) : ReceiveBuffer :=
  { b with current := b.current + size }

/-- Source: `ReceiveBuffer.increase_available(size)` — `available += size`. -/
def ReceiveBuffer.increaseAvailable (b : ReceiveBuffer) (size : Int) : ReceiveBuffer :=
  { b with available := b.available + size }

/-- Source: `ReceiveBuffer.fits(size)` — `current + size <= available`. -/
def ReceiveBuffer.fits (b : ReceiveBuffer) (size : Int) : Bool :=
  b.current + size ≤ b.available

/-- Source: `ReceiveBuffer.fits_eventually(size)` —
`current + size <= len(self._memory)`. -/
def ReceiveBuffer.fitsEventually (b : ReceiveBuffer) (size : Int) : Bool :=
  b.current + size ≤ (b.capacity : Int)

/-- Source: `ReceiveBuffer.free_len()` — `len(self._memory) - available`. -/
def ReceiveBuffer.freeLen (b : ReceiveBuffer) : Int :=
  (b.capacity : Int) - b.available

/-- A single forward (low-to-high index) byte copy of `n` bytes from resolved
index `src` to resolved index `dst`, one byte at a time.  CPython's
`memoryview` slice assignment copies the 1-D contiguous buffer front to back,
which for a left shift (`dst ≤ src`) agrees with a snapshot copy; the proofs
below establish exactly that. -/
def copyFwd (buf : List Nat) (dst src : Nat) : Nat → List Nat
  | 0 => buf
  | n + 1 => copyFwd (buf.set dst (buf.getD src 0)) (dst + 1) (src + 1) n

/-- Source: `ReceiveBuffer.truncate()` — when `current != 0`, execute
`self._memory[:distance] = self._memory[current:available]` (a `ValueError`
when the two resolved slices disagree in length, as for any Python
`memoryview` assignment), then `current = 0; available = distance`. -/
def ReceiveBuffer.truncate (b : ReceiveBuffer) : Except PyErr ReceiveBuffer :=
  if b.current = 0 then .ok b
  else
    let distance := b.available - b.current
    let len := b.backing.length
    let srcStart := pyBound len b.current
    let srcLen := (pySlice b.backing b.current b.available).length
    let dstLen := pyBound len distance
    if srcLen = dstLen then
      .ok { backing := copyFwd b.backing 0 srcStart srcLen
            current := 0
            available := distance }
    else .error .valueError

/-- Source: `ReceiveBuffer.grow_buffer(size)` — extend the backing bytearray
with `size - len(self._memory)` zero bytes (no effect when the requested size
is not larger). -/
def ReceiveBuffer.growBuffer (b : ReceiveBuffer) (size : Int) : ReceiveBuffer :=
  { b with backing := b.backing ++ List.replicate (size - (b.capacity : Int)).toNat 0 }

/-! ### Record parsing (`_ChannelMixin._parse_record` / `_parse_records`) -/

/-- Source: `RecordsParsingStatus` enum. -/
inductive RecordsParsingStatus where
  | FINISHED
  | UNPARSEABLE
  | NEEDS_MORE_BYTES
  | RECORD_TOO_BIG
  deriving DecidableEq, Repr

/-- Source: `_ChannelMixin._parse_record` — decode a full 32-byte key from the
front of `buffer`, then hand the rest to the payload type; `None` on either
failure. -/
def parseRecord {T : Type} (buffer : List Nat) (pt : PayloadType T) : Option (Record T) :=
  match Key.fromBytes (buffer.take 32) with
  | none => none
  | some key =>
    match pt.fromBytes (buffer.drop 32) with
    | none => none
    | some value => some { key := key, value := value }

/-- Source: the `while buffer.fits(4)` loop body of
`_ChannelMixin._parse_records`, with explicit fuel.  Every iteration that does
not return parses one record of declared size at least `32`, so the fuel
passed by `parseRecords` can never run out on a buffer whose window fits in
its backing store; exhaustion falls back to `NEEDS_MORE_BYTES`. -/
def parseRecordsLoop {T : Type} (pt : PayloadType T) (maxSize : Option Int) :
    Nat → ReceiveBuffer → List (Record T) →
    Except PyErr (RecordsParsingStatus × ReceiveBuffer × List (Record T))
  | 0, buf, recs => .ok (.NEEDS_MORE_BYTES, buf, recs)
  | fuel + 1, buf, recs =>
    if buf.fits 4 then
      let recordSize := leToInt (buf.peek 4 0)
      if recordSize = 0 then
        match (buf.increase 4).truncate with
        | .error e => .error e
        | .ok buf1 => .ok (.FINISHED, buf1, recs)
      else if buf.fits (4 + recordSize) then
        let record? := parseRecord (buf.peek recordSize 4) pt
        let buf1 := buf.increase (4 + recordSize)
        match record? with
        | none => .ok (.UNPARSEABLE, buf1, recs)
        | some r => parseRecordsLoop pt maxSize fuel buf1 (recs ++ [r])
      else if (match maxSize with
               | none => false
               | some m => decide (4 + recordSize > m)) then
        .ok (.RECORD_TOO_BIG, buf, recs)
      else
        match buf.truncate with
        | .error e => .error e
        | .ok buf1 =>
          .ok (.NEEDS_MORE_BYTES,
            (if ¬ buf1.fitsEventually (4 + recordSize) then buf1.growBuffer (4 + recordSize)
             else buf1), recs)
    else if ¬ buf.fitsEventually 4 then
      match buf.truncate with
      | .error e => .error e
      | .ok buf1 => .ok (.NEEDS_MORE_BYTES, buf1, recs)
    else .ok (.NEEDS_MORE_BYTES, buf, recs)

/-- Source: `_ChannelMixin._parse_records` — the loop above, supplied with
enough fuel for any reachable buffer. -/
def parseRecords {T : Type} (buf : ReceiveBuffer) (recs : List (Record T))
    (pt : PayloadType T) (maxSize : Option Int) :
    Except PyErr (RecordsParsingStatus × ReceiveBuffer × List (Record T)) :=
  parseRecordsLoop pt maxSize (buf.capacity + 1) buf recs

/-! ### Response headers (`RequestHeader`, `_ChannelMixin._handle_response`) -/

/-- Model of `RequestHeader` (`struct "<iQ"`): signed 32-bit status, unsigned
64-bit size. -/
structure RequestHeader where
  status : Int
  size : Nat
  deriving DecidableEq, Repr

/-- Source: `RequestHeader.is_ok` — `status == 0`. -/
def RequestHeader.isOk (h : RequestHeader) : Bool := h.status = 0

/-- Decode the aux payload formats used by the channel: `""`, `"<q"` and
`"<qq"` all read consecutive signed 64-bit fields. -/
def decodeQs : List Nat → List Int
  | [] => []
  | b :: bs => leToInt ((b :: bs).take 8) :: decodeQs ((b :: bs).drop 8)
  termination_by l => l.length
  decreasing_by simp; omega

/-- Source: `_ChannelMixin._handle_response(buffer, format)` with
`parserSize = struct.Struct(format).size` (0, 8 or 16 for the formats the
channel uses).  When the 12-byte header fits and the `size` it declares also
fits, the aux payload is unpacked (`struct.error` — hence `.error` — when the
peeked slice is shorter than the format, which happens when an OK header
declares a `size` smaller than the format needs and the extra bytes have not
arrived); a non-OK header decodes to an empty tuple.  Returns `none` when not
enough bytes are buffered. -/
def handleResponse (buf : ReceiveBuffer) (parserSize : Nat) :
    Except PyErr (Option (RequestHeader × List Int) × ReceiveBuffer) :=
  if buf.fits 12 then
    let hdrBytes := buf.peek 12 0
    let hdr : RequestHeader :=
      { status := leToInt (hdrBytes.take 4), size := leToNat (hdrBytes.drop 4) }
    if buf.fits (12 + (hdr.size : Int)) then
      match (if hdr.isOk then
          (if (buf.peek (parserSize : Int) 12).length = parserSize then
            Except.ok (decodeQs (buf.peek (parserSize : Int) 12))
          else Except.error PyErr.structError)
        else Except.ok []) with
      | .error e => .error e
      | .ok data => .ok (some (hdr, data), buf.increase (12 + (hdr.size : Int)))
    else Except.ok (none, buf)
  else Except.ok (none, buf)

/-! ### Outbound serializer (`_ChannelMixin._serialize_records_batches_iter`) -/

/-- Source: the flush guard `0 < len(raw_records) > (max_batch_size - size)` —
a Python chained comparison: the pending payload is non-empty AND its length
exceeds `max_batch_size - size`, where `size = len(raw_key) + len(raw_payload)`
(the 4-byte record-size prefix not included). -/
def shouldFlush (pendingLen : Nat) (size maxBatchSize : Int) : Bool :=
  0 < pendingLen ∧ (pendingLen : Int) > maxBatchSize - size

/-- Flush guard as the claim words it: the pending length plus the record's
encoded length including its 4-byte size prefix would exceed
`max_batch_size`.  Stated only to be compared with `shouldFlush`. -/
def shouldFlushClaim (pendingLen : Nat) (size maxBatchSize : Int) : Bool :=
  0 < pendingLen ∧ (pendingLen : Int) + (4 + size) > maxBatchSize

/-- Source: `struct.pack("<ii", cid, len(raw_records)) + raw_records` — one
yielded group frame; `none` models a `struct.error` on an out-of-range cid or
payload length. -/
def frameBytes (cid : Int) (payload : List Nat) : Option (List Nat) := do
  let a ← packInt 4 cid
  let b ← packInt 4 (payload.length : Int)
  pure (a ++ b ++ payload)

/-- How one group's serialization hands control back to the generator. -/
inductive SerFlow where
  /-- The group finished normally; the generator proceeds to the next group. -/
  | proceed
  /-- An invalid key with `skip_invalid = False`: the generator returns. -/
  | stopped
  /-- An exception was raised while producing the next frame. -/
  | failed (e : PyErr)
  deriving DecidableEq, Repr

/-- Source: the inner `for record in records` loop of
`_serialize_records_batches_iter` for one cid group, parameterised by the
flush guard so that the source guard and the claim's guard instantiate the
same loop.  Returns the frames yielded for this group, in order. -/
def serializeGroupF {T : Type} (pt : PayloadType T) (withAcq : Bool)
    (flushAt : Nat → Int → Bool) (skipInvalid : Bool) (cid : Int) :
    List (Record T) → List Nat → List (List Nat) × SerFlow
  | [], pending =>
    match frameBytes cid pending with
    | some f => ([f], .proceed)
    | none => ([], .failed .structError)
  | r :: rs, pending =>
    if ¬ r.key.valid then
      if skipInvalid then serializeGroupF pt withAcq flushAt skipInvalid cid rs pending
      else
        match frameBytes cid pending with
        | some f => ([f], .stopped)
        | none => ([], .failed .structError)
    else
      match r.key.toBytesRest withAcq with
      | none => ([], .failed .structError)
      | some rawKey =>
        let rawPayload := pt.toBytes r.value
        let size : Int := (rawKey.length : Int) + (rawPayload.length : Int)
        if flushAt pending.length size then
          match frameBytes cid pending with
          | none => ([], .failed .structError)
          | some f =>
            match packInt 4 size with
            | none => ([f], .failed .structError)
            | some sizeBytes =>
              let step := serializeGroupF pt withAcq flushAt skipInvalid cid rs
                (sizeBytes ++ rawKey ++ rawPayload)
              (f :: step.1, step.2)
        else
          match packInt 4 size with
          | none => ([], .failed .structError)
          | some sizeBytes =>
            let step := serializeGroupF pt withAcq flushAt skipInvalid cid rs
              (pending ++ sizeBytes ++ rawKey ++ rawPayload)
            (step.1, step.2)

/-- Source: `_ChannelMixin._group_records_by_cid` — a `defaultdict(list)`
keyed by cid; Python dicts preserve first-insertion order of the keys and
append within each bucket. -/
def groupInsert {T : Type} : List (Int × List (Record T)) → Record T → List (Int × List (Record T))
  | [], r => [(r.key.cid, [r])]
  | (c, rs) :: rest, r =>
    if c = r.key.cid then (c, rs ++ [r]) :: rest else (c, rs) :: groupInsert rest r

/-- Source: `_ChannelMixin._group_records_by_cid` over the whole records set. -/
def groupRecordsByCid {T : Type} (data : List (Record T)) : List (Int × List (Record T)) :=
  data.foldl groupInsert []

/-- Source: the outer `for cid, records in ...` loop of
`_serialize_records_batches_iter`: the frames the generator yields, plus the
exception (if any) that generating the next frame would raise. -/
def serializeGroupsF {T : Type} (pt : PayloadType T) (withAcq : Bool)
    (flushAt : Nat → Int → Bool) (skipInvalid : Bool) :
    List (Int × List (Record T)) → List (List Nat) × Option PyErr
  | [] => ([], none)
  | (cid, rs) :: rest =>
    match serializeGroupF pt withAcq flushAt skipInvalid cid rs [] with
    | (fs, .proceed) =>
      let tail := serializeGroupsF pt withAcq flushAt skipInvalid rest
      (fs ++ tail.1, tail.2)
    | (fs, .stopped) => (fs, none)
    | (fs, .failed e) => (fs, some e)

/-- Source: `_ChannelMixin._serialize_records_batches_iter` with the guard
actually in the code. -/
def serializeBatches {T : Type} (pt : PayloadType T) (withAcq : Bool)
    (maxBatchSize : Int) (skipInvalid : Bool) (data : List (Record T)) :
    List (List Nat) × Option PyErr :=
  serializeGroupsF pt withAcq (fun pl s => shouldFlush pl s maxBatchSize) skipInvalid
    (groupRecordsByCid data)

/-- The serializer as the claim describes it — identical loop, claim's flush
guard.  Stated only to be compared with `serializeBatches`. -/
def serializeBatchesClaim {T : Type} (pt : PayloadType T) (withAcq : Bool)
    (maxBatchSize : Int) (skipInvalid : Bool) (data : List (Record T)) :
    List (List Nat) × Option PyErr :=
  serializeGroupsF pt withAcq (fun pl s => shouldFlushClaim pl s maxBatchSize) skipInvalid
    (groupRecordsByCid data)

/-! ### Transport model and `Channel._feed_buffer`

A socket is modelled by the byte stream the peer will deliver plus an
adversarial schedule of chunk sizes: the `k`-th `recv_into` call returns at
most the `k`-th schedule entry.  An exhausted schedule or stream (or a `0`
entry) is end-of-stream — `recv` returning `0`.  Send calls are modelled by a
script giving each `sendall` call's outcome. -/

/-- Outcome of one `socket.sendall` call. -/
inductive SendRes where
  /-- The send succeeded. -/
  | sendOk
  /-- The send raised a `ConnectionError`. -/
  | connErr
  /-- The send raised some other `OSError`. -/
  | otherErr
  deriving DecidableEq, Repr

/-- Source: `Channel._feed_buffer(buffer, limit)` — take the free-space view
(its `assert self._available < len(self._memory)` raising on a full buffer),
call `recv_into(memory, min(limit, len(memory)))` — where CPython treats
`nbytes = 0` as "up to the buffer size" and a negative `nbytes` raises
`ValueError` — then `increase_available` by the byte count received.  Returns
the count, the updated buffer and the rest of the peer's stream. -/
def feedBuffer (b : ReceiveBuffer) (limit : Int) (stream : List Nat) (schedN : Nat) :
    Except PyErr (Nat × ReceiveBuffer × List Nat) :=
  if b.available < (b.capacity : Int) then
    let free : Int := (b.capacity : Int) - b.available
    let nbytes : Int := min limit free
    if nbytes < 0 then .error .valueError
    else
      let effMax : Int := if nbytes = 0 then free else nbytes
      let n : Nat := min (min schedN effMax.toNat) stream.length
      let b1 : ReceiveBuffer :=
        { b with
          backing := writeBytes b.backing b.available.toNat (stream.take n)
          available := b.available + n }
      .ok (n, b1, stream.drop n)
  else .error .assertError

/-- The byte count `recv_into` may return, as a function of the `limit`
argument `Channel._feed_buffer` passes and the free view length — the
quantity claim C3 constrains. -/
def recvRequestMax (limit free : Int) : Except PyErr Int :=
  let nbytes : Int := min limit free
  if nbytes < 0 then .error .valueError
  else .ok (if nbytes = 0 then free else nbytes)

/-- Source: the `limit` argument `Channel.get_stream` passes to
`_feed_buffer`: `self._memory_limit - total_bytes if self._memory_limit
else 0` — note `if self._memory_limit` is Python truthiness, so both `None`
and `0` select the `0` branch. -/
def streamFeedLimit (memoryLimit : Option Int) (total : Int) : Int :=
  match memoryLimit with
  | none => 0
  | some m => if m = 0 then 0 else m - total

/-- Source: `Channel._is_over_memory_limit`. -/
def isOverMemoryLimit (memoryLimit : Option Int) (size : Int) : Bool :=
  match memoryLimit with
  | none => false
  | some m => size > m

/-- Source: `Channel._is_at_memory_limit`. -/
def isAtMemoryLimit (memoryLimit : Option Int) (size : Int) : Bool :=
  match memoryLimit with
  | none => false
  | some m => size ≥ m

/-- Source: the receive-buffer capacity each `get*` method picks:
`recv_buffer_size if self._memory_limit is None else min(recv_buffer_size,
self._memory_limit)`. -/
def getBufferCapacity (recvBufferSize : Int) (memoryLimit : Option Int) : Int :=
  match memoryLimit with
  | none => recvBufferSize
  | some m => min recvBufferSize m

/-! ### `Channel.put` / `Channel.puta` (`Channel._put`) -/

/-- Source: the `for batch in ...: self._send_data(batch)` loop and the
terminator send inside `_put`'s `try` block.  `sends i` is the outcome of the
`i`-th `sendall` of the whole request; frame generation is interleaved with
sending, so a pending generator exception is only raised once every
already-generated frame was sent.  A `ConnectionError` is caught (`except
ConnectionError: pass`); any other error propagates. -/
def putSendPhase (sends : Nat → SendRes) : Nat → List (List Nat) → Option PyErr →
    Except PyErr Unit
  | i, [], genErr =>
    match genErr with
    | some e => .error e
    | none =>
      match sends i with
      | .sendOk => .ok ()
      | .connErr => .ok ()
      | .otherErr => .error .osError
  | i, _f :: fs, genErr =>
    match sends i with
    | .sendOk => putSendPhase sends (i + 1) fs genErr
    | .connErr => .ok ()
    | .otherErr => .error .osError

/-- Source: the `while self._feed_buffer(buffer)` response loop of `_put`,
reading a header with a 16-byte `"<qq"` aux payload; `OK`/`ERROR` from the
header status, `DISCONNECTED` when the stream ends first. -/
def putResponseLoop : List Nat → List Nat → ReceiveBuffer → Except PyErr Response
  | [], stream, buf =>
    match feedBuffer buf 0 stream 0 with
    | .error e => .error e
    | .ok _ => .ok { status := .DISCONNECTED }
  | schedN :: sched, stream, buf =>
    match feedBuffer buf 0 stream schedN with
    | .error e => .error e
    | .ok (n, buf1, stream1) =>
      if n = 0 then .ok { status := .DISCONNECTED }
      else
        match handleResponse buf1 16 with
        | .error e => .error e
        | .ok (some (hdr, _), _) => .ok { status := if hdr.isOk then .OK else .ERROR }
        | .ok (none, buf2) => putResponseLoop sched stream1 buf2

/-- Source: `Channel._put` — `DISCONNECTED` when not connected; send the
request header (outside the `try` block, so its errors propagate); then the
batch frames and the `-1` terminator inside `try ... except ConnectionError:
pass`; then read one response. -/
def putRun {T : Type} (connected : Bool) (sends : Nat → SendRes) (pt : PayloadType T)
    (withAcq : Bool) (maxBatchSize : Int) (skipInvalid : Bool) (data : List (Record T))
    (sched stream : List Nat) : Except PyErr Response :=
  if ¬ connected then .ok { status := .DISCONNECTED }
  else
    match sends 0 with
    | .connErr => .error .connectionError
    | .otherErr => .error .osError
    | .sendOk =>
      let gen := serializeBatches pt withAcq maxBatchSize skipInvalid data
      match putSendPhase sends 1 gen.1 gen.2 with
      | .error e => .error e
      | .ok _ => putResponseLoop sched stream (mkReceiveBuffer (12 + 16 + 0))

/-! ### `Channel.get_acq` -/

/-- Source: the `while self._feed_buffer(buffer)` loop of `get_acq`, reading
a header with an 8-byte `"<q"` aux payload. -/
def getAcqResponseLoop : List Nat → List Nat → ReceiveBuffer → Except PyErr ResponseAcq
  | [], stream, buf =>
    match feedBuffer buf 0 stream 0 with
    | .error e => .error e
    | .ok _ => .ok { status := .DISCONNECTED }
  | schedN :: sched, stream, buf =>
    match feedBuffer buf 0 stream schedN with
    | .error e => .error e
    | .ok (n, buf1, stream1) =>
      if n = 0 then .ok { status := .DISCONNECTED }
      else
        match handleResponse buf1 8 with
        | .error e => .error e
        | .ok (some (hdr, vals), _) =>
          if hdr.isOk then
            match vals with
            | v :: _ => .ok { status := .OK, acq := v }
            | [] => .error .indexError
          else .ok { status := .ERROR }
        | .ok (none, buf2) => getAcqResponseLoop sched stream1 buf2

/-- Source: `Channel.get_acq` — `DISCONNECTED` when not connected, send the
`GETACQ` key-range request, then read one header + acq. -/
def getAcqRun (connected : Bool) (send0 : SendRes) (sched stream : List Nat) :
    Except PyErr ResponseAcq :=
  if ¬ connected then .ok { status := .DISCONNECTED }
  else
    match send0 with
    | .connErr => .error .connectionError
    | .otherErr => .error .osError
    | .sendOk => getAcqResponseLoop sched stream (mkReceiveBuffer (12 + 8 + 0))

/-! ### `Channel.get`

Each `get*` request loop is split into a non-recursive step — everything one
`while` iteration does after its `_feed_buffer` call, including the
fall-through between the `INITIAL_HEADER`, `RECORDS_PARSING` and
`FINAL_HEADER` stages — and a loop that recurses over the chunk schedule.
`Sum.inl` is a `return`; `Sum.inr` carries the state of the next iteration. -/

/-- Source: `GetRequestState` enum. -/
inductive GetStage where
  | INITIAL_HEADER
  | RECORDS_PARSING
  | FINAL_HEADER
  deriving DecidableEq, Repr

/-- The state threaded from one `get*` loop iteration to the next: remaining
peer stream, stage, `total_bytes`, buffer and the `records` list. -/
abbrev GetCont (T : Type) := List Nat × GetStage × Int × ReceiveBuffer × List (Record T)

/-- Source: the `if stage == GetRequestState.FINAL_HEADER` block of
`Channel.get`. -/
def getFinalBlock {T : Type} (buf : ReceiveBuffer) (recs : List (Record T))
    (stream : List Nat) (total : Int) :
    Except PyErr (Sum (ResponseGet T) (GetCont T)) :=
  match handleResponse buf 8 with
  | .error e => .error e
  | .ok (some (hdr, vals), _) =>
    if hdr.isOk then
      match vals with
      | v :: _ => .ok (.inl { status := .OK, acq := v, data := recs })
      | [] => .error .indexError
    else .ok (.inl { status := .ERROR, data := recs })
  | .ok (none, buf2) => .ok (.inr (stream, .FINAL_HEADER, total, buf2, recs))

/-- Source: the `if stage == GetRequestState.RECORDS_PARSING` block of
`Channel.get`; `FINISHED` falls through into the final-header block. -/
def getParseBlock {T : Type} (pt : PayloadType T) (memoryLimit : Option Int)
    (buf : ReceiveBuffer) (recs : List (Record T)) (stream : List Nat) (total : Int) :
    Except PyErr (Sum (ResponseGet T) (GetCont T)) :=
  match parseRecords buf recs pt memoryLimit with
  | .error e => .error e
  | .ok (.NEEDS_MORE_BYTES, buf2, recs2) =>
    .ok (.inr (stream, .RECORDS_PARSING, total, buf2, recs2))
  | .ok (.FINISHED, buf2, recs2) => getFinalBlock buf2 recs2 stream total
  | .ok (.UNPARSEABLE, _, recs2) => .ok (.inl { status := .UNPARSEABLE_ENTITY, data := recs2 })
  | .ok (.RECORD_TOO_BIG, _, recs2) => .ok (.inl { status := .NO_MEMORY, data := recs2 })

/-- Source: one iteration of `Channel.get`'s `while` loop. -/
def getStep {T : Type} (pt : PayloadType T) (memoryLimit : Option Int) (schedN : Nat)
    (stream : List Nat) (stage : GetStage) (total : Int) (buf : ReceiveBuffer)
    (recs : List (Record T)) : Except PyErr (Sum (ResponseGet T) (GetCont T)) :=
  match feedBuffer buf 0 stream schedN with
  | .error e => .error e
  | .ok (n, buf1, stream1) =>
    if n = 0 then .ok (.inl { status := .DISCONNECTED, data := recs })
    else
      if isOverMemoryLimit memoryLimit (total + n) then
        .ok (.inl { status := .NO_MEMORY, data := recs })
      else
        match stage with
        | .INITIAL_HEADER =>
          match handleResponse buf1 0 with
          | .error e => .error e
          | .ok (some (hdr, _), buf2) =>
            if ¬ hdr.isOk then .ok (.inl { status := .BAD_REQUEST, data := recs })
            else getParseBlock pt memoryLimit buf2 recs stream1 (total + n)
          | .ok (none, buf2) => .ok (.inr (stream1, .INITIAL_HEADER, total + n, buf2, recs))
        | .RECORDS_PARSING => getParseBlock pt memoryLimit buf1 recs stream1 (total + n)
        | .FINAL_HEADER => getFinalBlock buf1 recs stream1 (total + n)

/-- Source: `Channel.get`'s `while bytes_received := self._feed_buffer(buffer)`
loop; an exhausted schedule is the `recv` call that reports end-of-stream. -/
def getLoop {T : Type} (pt : PayloadType T) (memoryLimit : Option Int) :
    List Nat → List Nat → GetStage → Int → ReceiveBuffer → List (Record T) →
    Except PyErr (ResponseGet T)
  | [], stream, _stage, _total, buf, recs =>
    match feedBuffer buf 0 stream 0 with
    | .error e => .error e
    | .ok _ => .ok { status := .DISCONNECTED, data := recs }
  | schedN :: sched, stream, stage, total, buf, recs =>
    match getStep pt memoryLimit schedN stream stage total buf recs with
    | .error e => .error e
    | .ok (.inl r) => .ok r
    | .ok (.inr (stream1, stage1, total1, buf1, recs1)) =>
      getLoop pt memoryLimit sched stream1 stage1 total1 buf1 recs1

/-- Source: `Channel.get` — `DISCONNECTED` when not connected, send the `GET`
key-range request, then drive the parsing state machine. -/
def getRun {T : Type} (connected : Bool) (send0 : SendRes) (pt : PayloadType T)
    (memoryLimit : Option Int) (recvBufferSize : Int) (sched stream : List Nat) :
    Except PyErr (ResponseGet T) :=
  if ¬ connected then .ok { status := .DISCONNECTED }
  else
    match send0 with
    | .connErr => .error .connectionError
    | .otherErr => .error .osError
    | .sendOk =>
      getLoop pt memoryLimit sched stream .INITIAL_HEADER 0
        (mkReceiveBuffer (getBufferCapacity recvBufferSize memoryLimit)) []

/-! ### `Channel.get_stream`

The run result pairs the sequence of callback invocations (each one batch of
records) with the outcome. -/

/-- Source: the final-header block of `Channel.get_stream`. -/
def streamFinalBlock {T : Type} (buf : ReceiveBuffer) (stream : List Nat) (total : Int)
    (recs : List (Record T)) :
    List (List (Record T)) × Except PyErr (Sum ResponseAcq (GetCont T)) :=
  match handleResponse buf 8 with
  | .error e => ([], .error e)
  | .ok (resp?, buf2) =>
    match resp? with
    | some (hdr, vals) =>
      if hdr.isOk then
        match vals with
        | v :: _ => ([], .ok (.inl { status := .OK, acq := v }))
        | [] => ([], .error .indexError)
      else ([], .ok (.inl { status := .ERROR }))
    | none => ([], .ok (.inr (stream, .FINAL_HEADER, total, buf2, recs)))

/-- Source: the records-parsing block of `Channel.get_stream`: flush the
parsed batch to the callback when the limit is reached, when parsing
finished, or before reporting a failure; reset `total_bytes` on each flush. -/
def streamParseBlock {T : Type} (pt : PayloadType T) (memoryLimit : Option Int)
    (buf : ReceiveBuffer) (recs : List (Record T)) (stream : List Nat) (total : Int) :
    List (List (Record T)) × Except PyErr (Sum ResponseAcq (GetCont T)) :=
  match parseRecords buf recs pt memoryLimit with
  | .error e => ([], .error e)
  | .ok (.NEEDS_MORE_BYTES, buf2, recs2) =>
    if isAtMemoryLimit memoryLimit total then
      if recs2.isEmpty then ([], .ok (.inl { status := .NO_MEMORY }))
      else ([recs2], .ok (.inr (stream, .RECORDS_PARSING, 0, buf2, [])))
    else ([], .ok (.inr (stream, .RECORDS_PARSING, total, buf2, recs2)))
  | .ok (.FINISHED, buf2, recs2) =>
    if recs2.isEmpty then streamFinalBlock buf2 stream total ([] : List (Record T))
    else
      (recs2 :: (streamFinalBlock buf2 stream 0 ([] : List (Record T))).1,
        (streamFinalBlock buf2 stream 0 ([] : List (Record T))).2)
  | .ok (.UNPARSEABLE, _, recs2) =>
    ((if recs2.isEmpty then [] else [recs2]), .ok (.inl { status := .UNPARSEABLE_ENTITY }))
  | .ok (.RECORD_TOO_BIG, _, recs2) =>
    ((if recs2.isEmpty then [] else [recs2]), .ok (.inl { status := .NO_MEMORY }))

/-- Source: one iteration of `Channel.get_stream`'s `while` loop, including
the memory-capped `_feed_buffer` limit argument. -/
def streamStep {T : Type} (pt : PayloadType T) (memoryLimit : Option Int) (schedN : Nat)
    (stream : List Nat) (stage : GetStage) (total : Int) (buf : ReceiveBuffer)
    (recs : List (Record T)) :
    List (List (Record T)) × Except PyErr (Sum ResponseAcq (GetCont T)) :=
  match feedBuffer buf (streamFeedLimit memoryLimit total) stream schedN with
  | .error e => ([], .error e)
  | .ok (n, buf1, stream1) =>
    if n = 0 then
      ((if recs.isEmpty then [] else [recs]), .ok (.inl { status := .DISCONNECTED }))
    else
      match stage with
      | .INITIAL_HEADER =>
        match handleResponse buf1 0 with
        | .error e => ([], .error e)
        | .ok (some (hdr, _), buf2) =>
          if ¬ hdr.isOk then ([], .ok (.inl { status := .BAD_REQUEST }))
          else streamParseBlock pt memoryLimit buf2 recs stream1 (total + n)
        | .ok (none, buf2) => ([], .ok (.inr (stream1, .INITIAL_HEADER, total + n, buf2, recs)))
      | .RECORDS_PARSING => streamParseBlock pt memoryLimit buf1 recs stream1 (total + n)
      | .FINAL_HEADER => streamFinalBlock buf1 stream1 (total + n) recs

/-- Source: `Channel.get_stream`'s `while` loop plus the post-loop flush of a
pending batch before returning `DISCONNECTED`. -/
def streamLoop {T : Type} (pt : PayloadType T) (memoryLimit : Option Int) :
    List Nat → List Nat → GetStage → Int → ReceiveBuffer → List (Record T) →
    List (List (Record T)) × Except PyErr ResponseAcq
  | [], stream, _stage, total, buf, recs =>
    match feedBuffer buf (streamFeedLimit memoryLimit total) stream 0 with
    | .error e => ([], .error e)
    | .ok _ =>
      ((if recs.isEmpty then [] else [recs]), .ok { status := .DISCONNECTED })
  | schedN :: sched, stream, stage, total, buf, recs =>
    match streamStep pt memoryLimit schedN stream stage total buf recs with
    | (calls, .error e) => (calls, .error e)
    | (calls, .ok (.inl r)) => (calls, .ok r)
    | (calls, .ok (.inr (stream1, stage1, total1, buf1, recs1))) =>
      let next := streamLoop pt memoryLimit sched stream1 stage1 total1 buf1 recs1
      (calls ++ next.1, next.2)

/-- Source: `Channel.get_stream`. -/
def streamRun {T : Type} (connected : Bool) (send0 : SendRes) (pt : PayloadType T)
    (memoryLimit : Option Int) (recvBufferSize : Int) (sched stream : List Nat) :
    List (List (Record T)) × Except PyErr ResponseAcq :=
  if ¬ connected then ([], .ok { status := .DISCONNECTED })
  else
    match send0 with
    | .connErr => ([], .error .connectionError)
    | .otherErr => ([], .error .osError)
    | .sendOk =>
      streamLoop pt memoryLimit sched stream .INITIAL_HEADER 0
        (mkReceiveBuffer (getBufferCapacity recvBufferSize memoryLimit)) []

/-! ### `Channel.get_iter`

The run result is the trace of yielded items paired with the exception, if
any, that ended the generator instead of a normal return. -/

/-- One item yielded by `get_iter`: a record or the terminal response. -/
inductive GetItem (T : Type) where
  | record (r : Record T)
  | response (r : ResponseAcq)
  deriving DecidableEq, Repr

/-- Source: the final-header block of `Channel.get_iter`. -/
def iterFinalBlock {T : Type} (buf : ReceiveBuffer) (stream : List Nat) (total : Int) :
    List (GetItem T) × Except PyErr (Option (GetCont T)) :=
  match handleResponse buf 8 with
  | .error e => ([], .error e)
  | .ok (resp?, buf2) =>
    match resp? with
    | some (hdr, vals) =>
      if hdr.isOk then
        match vals with
        | v :: _ => ([.response { status := .OK, acq := v }], .ok none)
        | [] => ([], .error .indexError)
      else ([.response { status := .ERROR }], .ok none)
    | none => ([], .ok (some (stream, .FINAL_HEADER, total, buf2, [])))

/-- Source: the records-parsing block of `Channel.get_iter`: parse, yield
every parsed record, clear the list, then dispatch on the verdict. -/
def iterParseBlock {T : Type} (pt : PayloadType T) (memoryLimit : Option Int)
    (buf : ReceiveBuffer) (recs : List (Record T)) (stream : List Nat) (total : Int) :
    List (GetItem T) × Except PyErr (Option (GetCont T)) :=
  match parseRecords buf recs pt memoryLimit with
  | .error e => ([], .error e)
  | .ok (.NEEDS_MORE_BYTES, buf2, recs2) =>
    (recs2.map GetItem.record, .ok (some (stream, .RECORDS_PARSING, total, buf2, [])))
  | .ok (.FINISHED, buf2, recs2) =>
    (recs2.map GetItem.record ++ (iterFinalBlock (T := T) buf2 stream total).1,
      (iterFinalBlock (T := T) buf2 stream total).2)
  | .ok (.UNPARSEABLE, _, recs2) =>
    (recs2.map GetItem.record ++ [.response { status := .UNPARSEABLE_ENTITY }], .ok none)
  | .ok (.RECORD_TOO_BIG, _, recs2) =>
    (recs2.map GetItem.record ++ [.response { status := .NO_MEMORY }], .ok none)

/-- Source: one iteration of `Channel.get_iter`'s `while` loop. -/
def iterStep {T : Type} (pt : PayloadType T) (memoryLimit : Option Int) (schedN : Nat)
    (stream : List Nat) (stage : GetStage) (total : Int) (buf : ReceiveBuffer)
    (recs : List (Record T)) :
    List (GetItem T) × Except PyErr (Option (GetCont T)) :=
  match feedBuffer buf 0 stream schedN with
  | .error e => ([], .error e)
  | .ok (n, buf1, stream1) =>
    if n = 0 then
      (recs.map GetItem.record ++ [.response { status := .DISCONNECTED }], .ok none)
    else
      if isOverMemoryLimit memoryLimit (total + n) then
        (recs.map GetItem.record ++ [.response { status := .NO_MEMORY }], .ok none)
      else
        match stage with
        | .INITIAL_HEADER =>
          match handleResponse buf1 0 with
          | .error e => ([], .error e)
          | .ok (some (hdr, _), buf2) =>
            if ¬ hdr.isOk then ([.response { status := .BAD_REQUEST }], .ok none)
            else iterParseBlock pt memoryLimit buf2 recs stream1 (total + n)
          | .ok (none, buf2) => ([], .ok (some (stream1, .INITIAL_HEADER, total + n, buf2, recs)))
        | .RECORDS_PARSING => iterParseBlock pt memoryLimit buf1 recs stream1 (total + n)
        | .FINAL_HEADER => iterFinalBlock buf1 stream1 (total + n)

/-- Source: `Channel.get_iter`'s `while` loop plus the post-loop
`yield from records; yield DISCONNECTED`. -/
def iterLoop {T : Type} (pt : PayloadType T) (memoryLimit : Option Int) :
    List Nat → List Nat → GetStage → Int → ReceiveBuffer → List (Record T) →
    List (GetItem T) × Option PyErr
  | [], stream, _stage, _total, buf, recs =>
    match feedBuffer buf 0 stream 0 with
    | .error e => ([], some e)
    | .ok _ =>
      (recs.map GetItem.record ++ [.response { status := .DISCONNECTED }], none)
  | schedN :: sched, stream, stage, total, buf, recs =>
    match iterStep pt memoryLimit schedN stream stage total buf recs with
    | (items, .error e) => (items, some e)
    | (items, .ok none) => (items, none)
    | (items, .ok (some (stream1, stage1, total1, buf1, recs1))) =>
      let next := iterLoop pt memoryLimit sched stream1 stage1 total1 buf1 recs1
      (items ++ next.1, next.2)

/-- Source: `Channel.get_iter`. -/
def iterRun {T : Type} (connected : Bool) (send0 : SendRes) (pt : PayloadType T)
    (memoryLimit : Option Int) (recvBufferSize : Int) (sched stream : List Nat) :
    List (GetItem T) × Option PyErr :=
  if ¬ connected then ([.response { status := .DISCONNECTED }], none)
  else
    match send0 with
    | .connErr => ([], some .connectionError)
    | .otherErr => ([], some .osError)
    | .sendOk =>
      iterLoop pt memoryLimit sched stream .INITIAL_HEADER 0
        (mkReceiveBuffer (getBufferCapacity recvBufferSize memoryLimit)) []

/-! ### Timestamps (`timestamp.py`)

An aware `datetime.datetime` is determined by its exact POSIX timestamp; it
is modelled by the pair of its whole seconds since the Unix epoch
(`seconds`, the floor) and its `microsecond` attribute (`0 ≤ microsecond <
10^6`).  For an aware datetime, CPython computes `datetime.timestamp()` as
`(self - epoch).total_seconds()`, and `timedelta.total_seconds` is the single
integer true division `(seconds * 10^6 + microsecond) / 10^6`.  CPython true
division of two ints is correctly rounded to an IEEE-754 binary64 (round half
to even), so the float is modelled as the pair `(m, e)` with value `m * 2^e`,
`|m| ≤ 2^53`, produced by rounding the exact rational to 53 significant bits.
Every float arising below lies well inside the normal binary64 range, so
exponent clamping (overflow to infinity, subnormal flushing) never fires and
is omitted.  Python's `int()` then truncates the float toward zero. -/

/-- Floor of the base-2 logarithm by fuelled halving (any `fuel ≥ n` gives
the exact value); structural recursion in the fuel keeps it kernel-reducible. -/
def nlog2Aux : Nat → Nat → Nat
  | 0, _ => 0
  | fuel + 1, n => if n < 2 then 0 else nlog2Aux fuel (n / 2) + 1

/-- `⌊log2 n⌋` for `n ≥ 1` (and `0` at `0`). -/
def nlog2 (n : Nat) : Nat := nlog2Aux n n

/-- Round the rational `p / q` (with `0 < q`) to the nearest integer, ties to
even — the rounding of IEEE-754 binary64 and hence of CPython's correctly
rounded big-int true division. -/
def rhe (p q : Nat) : Nat :=
  if 2 * (p % q) < q then p / q
  else if q < 2 * (p % q) then p / q + 1
  else if p / q % 2 = 0 then p / q else p / q + 1

/-- `2 ^ L ≤ n / d`, stated over the integers so that `L` may be negative. -/
def p2le (L : Int) (n d : Nat) : Bool :=
  if 0 ≤ L then decide (d * 2 ^ L.toNat ≤ n) else decide (d ≤ n * 2 ^ (-L).toNat)

/-- `⌊log2 (n / d)⌋` for positive `n`, `d`: the candidate
`⌊log2 n⌋ - ⌊log2 d⌋` is either exact or one too large. -/
def flog2 (n d : Nat) : Int :=
  if p2le ((nlog2 n : Int) - (nlog2 d : Int)) n d
  then (nlog2 n : Int) - (nlog2 d : Int)
  else (nlog2 n : Int) - (nlog2 d : Int) - 1

/-- Round the positive rational `n / d` to 53 significant bits, ties to even:
the resulting binary64 value is `m * 2 ^ e` with `2 ^ 52 ≤ m ≤ 2 ^ 53`. -/
def flRound (n d : Nat) : Nat × Int :=
  if 0 ≤ flog2 n d - 52
  then (rhe n (d * 2 ^ (flog2 n d - 52).toNat), flog2 n d - 52)
  else (rhe (n * 2 ^ (-(flog2 n d - 52)).toNat) d, flog2 n d - 52)

/-- The binary64 nearest `n / d` (for `0 < d`), sign carried on the
significand: models CPython's correctly rounded `int / int` true division. -/
def flOfRat (n : Int) (d : Nat) : Int × Int :=
  if n = 0 then (0, 0)
  else if 0 ≤ n then (((flRound n.toNat d).1 : Int), (flRound n.toNat d).2)
  else (-((flRound (-n).toNat d).1 : Int), (flRound (-n).toNat d).2)

/-- Python `int()` applied to a float: truncation toward zero. -/
def truncFloat (f : Int × Int) : Int :=
  if 0 ≤ f.2 then f.1 * 2 ^ f.2.toNat else Int.tdiv f.1 (2 ^ (-f.2).toNat)

/-- Model of `Tstoragedatetime`: the wrapped aware datetime (as whole seconds
since the Unix epoch plus its microsecond attribute) and the extra
`nanoseconds` field. -/
structure Tstoragedatetime where
  seconds : Int
  microsecond : Nat
  nanoseconds : Int
  deriving DecidableEq, Repr

/-- Source: `self.datetime.timestamp()` — the correctly rounded binary64 of
the exact timestamp `(seconds * 10^6 + microsecond) / 10^6`. -/
def timestampFloat (x : Tstoragedatetime) : Int × Int :=
  flOfRat (x.seconds * 1000000 + (x.microsecond : Int)) 1000000

/-- Source: `int(self.datetime.timestamp())` — truncate that float toward
zero. -/
def timestampInt (x : Tstoragedatetime) : Int :=
  truncFloat (timestampFloat x)

/-- Source: `Tstoragedatetime.to_unix_ns` —
`(int(timestamp()) * 10^6 + microsecond) * 1000 + nanoseconds`. -/
def toUnixNs (x : Tstoragedatetime) : Int :=
  (timestampInt x * 1000000 + (x.microsecond : Int)) * 1000 + x.nanoseconds

/-- Source: `Tstoragedatetime.from_unix_ns` — Python `//` and `%` are floor
division and floor modulus, which on these positive divisors are `/` and `%`
on `Int`; `datetime.fromtimestamp(seconds, utc).replace(microsecond=micros)`
yields the datetime with exactly those whole seconds and that microsecond. -/
def fromUnixNs (t : Int) : Tstoragedatetime :=
  { seconds := t / 1000000000
    microsecond := ((t / 1000) % 1000000).toNat
    nanoseconds := t % 1000 }

/-- Source: `Tstoragedatetime.to_unix` — `self.to_unix_ns() / 10**9`, a
correctly rounded `int / int` true division producing a binary64. -/
def toUnix (x : Tstoragedatetime) : Int × Int :=
  flOfRat (toUnixNs x) 1000000000

/-- Binary64 multiplication of the float `f` by an exactly representable
natural `k` (such as `10^9 < 2^53`): the exact product is re-rounded to 53
bits, as IEEE-754 multiplication demands. -/
def floatMulNat (f : Int × Int) (k : Nat) : Int × Int :=
  if 0 ≤ f.2 then flOfRat (f.1 * (k : Int) * 2 ^ f.2.toNat) 1
  else flOfRat (f.1 * (k : Int)) (2 ^ (-f.2).toNat)

/-- Source: `Tstoragedatetime.from_unix` applied to a float `timestamp` —
`from_unix_ns(int(timestamp * 10**9))`. -/
def fromUnix (t : Int × Int) : Tstoragedatetime :=
  fromUnixNs (truncFloat (floatMulNat t 1000000000))

/-- A `Tstoragedatetime` whose fields are in the ranges the wrapped
`datetime` guarantees (`microsecond`) and the dataclass documents
(`nanoseconds` in `0..999`). -/
def Tstoragedatetime.wellFormed (x : Tstoragedatetime) : Prop :=
  x.microsecond < 1000000 ∧ 0 ≤ x.nanoseconds ∧ x.nanoseconds < 1000

instance (x : Tstoragedatetime) : Decidable x.wellFormed := by
  unfold Tstoragedatetime.wellFormed; infer_instance

/-! ### Mock server (`pystorage.py`): `getAcq` and key-range validation -/

/-- Model of the mock server's `Key` dataclass (`pystorage.py`). -/
structure SKey where
  cid : Int
  mid : Int
  moid : Int
  cap : Int
  acq : Int
  deriving DecidableEq, Repr

/-- Source: `Key.__lt__` in `pystorage.py` — componentwise strict order. -/
def SKey.lt (a b : SKey) : Bool :=
  a.cid < b.cid ∧ a.mid < b.mid ∧ a.moid < b.moid ∧ a.cap < b.cap ∧ a.acq < b.acq

/-- Source: `ACQFOLLOWTHRESHOLD = 10000000`. -/
def ACQFOLLOWTHRESHOLD : Int := 10000000

/-- Source: `ServerMock.validateKey` — `ProtocolError` when `cid < 0`. -/
def validateKey (k : SKey) : Bool := 0 ≤ k.cid

/-- Source: `ServerMock.validateKeyRange` — both keys valid, `keyMin.acq`
not beyond `lastAcq` (no ranges "from the future"), and `keyMin < keyMax`
componentwise strictly. -/
def validateKeyRange (lastAcq : Int) (keyMin keyMax : SKey) : Bool :=
  validateKey keyMin ∧ validateKey keyMax ∧ keyMin.acq ≤ lastAcq ∧ SKey.lt keyMin keyMax

/-- Source: `ServerMock.getAcq` — validate the range; refresh `lastAcq` to
`now()` when `keyMax.acq` exceeds `lastAcq + ACQFOLLOWTHRESHOLD`; clamp with
`min(keyMax.acq, lastAcq)`; return the clamped value (which is also the new
stored `lastAcq`).  `nowVal` stands for the nondeterministic `self.now()`. -/
def serverGetAcq (lastAcq nowVal : Int) (keyMin keyMax : SKey) : Option (Int × Int) :=
  if validateKeyRange lastAcq keyMin keyMax then
    let l1 := if keyMax.acq > lastAcq + ACQFOLLOWTHRESHOLD then nowVal else lastAcq
    let l2 := min keyMax.acq l1
    some (l2, l2)
  else none

/-! ### Built-in payload type and concrete example inputs -/

/-- Source: `BytesPayloadType` — identity in both directions, never fails. -/
def bytesPayloadType : PayloadType (List Nat) :=
  { toBytes := fun v => v
    fromBytes := fun bs => some bs }

/-- Example key `Key(1, 2, 3, 4, 5)`. -/
def exKeyA : Key := { cid := 1, mid := 2, moid := 3, cap := 4, acq := 5 }

/-- The full 32-byte wire image of `exKeyA`. -/
def exKeyABytes : List Nat :=
  intToLE 4 1 ++ intToLE 8 2 ++ intToLE 4 3 ++ intToLE 8 4 ++ intToLE 8 5

/-- An inbound wire record: 4-byte size prefix `34`, `exKeyA`, payload `[7, 9]`. -/
def exRecordABytes : List Nat := intToLE 4 34 ++ exKeyABytes ++ [7, 9]

/-- An OK response header declaring no auxiliary payload. -/
def exOkHeader : List Nat := intToLE 4 0 ++ natToLE 8 0

/-- A conforming `GET` response stream: OK header, one record, the
`record_size = 0` sentinel, and an OK final header carrying `acq = 77`. -/
def exGetStream : List Nat :=
  exOkHeader ++ exRecordABytes ++ intToLE 4 0 ++ (intToLE 4 0 ++ natToLE 8 8 ++ intToLE 8 77)

/-- A malformed `GET` response stream: OK header, empty record stream
(sentinel at once), then an OK final header that declares `size = 0` — the
8-byte acq payload the client's `"<q"` decoder expects is missing. -/
def exBadFinalStream : List Nat :=
  exOkHeader ++ intToLE 4 0 ++ (intToLE 4 0 ++ natToLE 8 0)

/-- Two records of one cid whose encoded entries are 24 wire bytes each
(20-byte acq-less key rest, empty payload, 4-byte size prefix). -/
def exC2Records : List (Record (List Nat)) :=
  [ { key := { cid := 1, mid := 2, moid := 3, cap := 4, acq := -1 }, value := [] }
  , { key := { cid := 1, mid := 5, moid := 6, cap := 7, acq := -1 }, value := [] } ]

/-- A receive-buffer state holding one parseable record followed by a record
whose key has `cid = -1` (parsed to `None` — `UNPARSEABLE`). -/
def exUnparseableBuffer : ReceiveBuffer :=
  { backing :=
      exRecordABytes ++
      (intToLE 4 32 ++ intToLE 4 (-1) ++ intToLE 8 2 ++ intToLE 4 3 ++ intToLE 8 4 ++ intToLE 8 5)
    current := 0
    available := 74 }

/-- A `get_iter` item segment consisting of records only. -/
def ItemsRecordsOnly {T : Type} (items : List (GetItem T)) : Prop :=
  ∃ rs : List (Record T), items = rs.map GetItem.record

/-- A `get_iter` item segment of zero or more records followed by exactly
one terminal `ResponseAcq`. -/
def ItemsTerminal {T : Type} (items : List (GetItem T)) : Prop :=
  ∃ (rs : List (Record T)) (r : ResponseAcq),
    items = rs.map GetItem.record ++ [GetItem.response r]

/-- Shape invariant of one `get_iter` step result: a continuing step has
yielded records only; a normally-returning step has yielded records followed
by exactly one terminal response. -/
def StepShape {T : Type} (p : List (GetItem T) × Except PyErr (Option (GetCont T))) : Prop :=
  (∀ st, p.2 = .ok (some st) → ItemsRecordsOnly p.1) ∧
  (p.2 = .ok none → ItemsTerminal p.1)

/-- Shape invariant of a whole `get_iter` run: if no exception escaped, the
trace is records followed by exactly one terminal response. -/
def RunShape {T : Type} (p : List (GetItem T) × Option PyErr) : Prop :=
  p.2 = none → ItemsTerminal p.1

/-- The claim-C10 property of one `ResponseAcq`: a non-OK status comes with
the dataclass-default sentinel `acq = -1`. -/
def AcqInvalidOnError (r : ResponseAcq) : Prop := r.status ≠ .OK → r.acq = -1

/-- The claim-C10 property of one `ResponseGet`. -/
def GetAcqInvalidOnError {T : Type} (r : ResponseGet T) : Prop :=
  r.status ≠ .OK → r.acq = -1

/-- Claim-C10 property lifted over `get_acq`'s fallible result. -/
def ExceptAcqOk (x : Except PyErr ResponseAcq) : Prop :=
  ∀ r, x = .ok r → AcqInvalidOnError r

/-- Claim-C10 property lifted over `get`'s fallible result. -/
def ExceptGetOk {T : Type} (x : Except PyErr (ResponseGet T)) : Prop :=
  ∀ r, x = .ok r → GetAcqInvalidOnError r

/-- Claim-C10 property of one `get` step outcome. -/
def SumAcqOkGet {T : Type} (x : Except PyErr (Sum (ResponseGet T) (GetCont T))) : Prop :=
  ∀ r, x = .ok (.inl r) → GetAcqInvalidOnError r

/-- Claim-C10 property of one `get_stream` step outcome. -/
def SumAcqOkStream {T : Type} (x : Except PyErr (Sum ResponseAcq (GetCont T))) : Prop :=
  ∀ r, x = .ok (.inl r) → AcqInvalidOnError r

/-- Claim-C10 property of a `get_iter` item trace. -/
def ItemsAcqOk {T : Type} (items : List (GetItem T)) : Prop :=
  ∀ r, GetItem.response r ∈ items → AcqInvalidOnError r

/-! ## Theorems

General lemmas about the byte codecs, the buffer and the drivers come first;
the claim theorems, their witnesses and their counterexamples follow. -/

theorem length_natToLE (w n : Nat) : (natToLE w n).length = w := by
  induction w generalizing n with
  | zero => rfl
  | succ w ih => simp [natToLE, ih]

theorem leToNat_natToLE (w n : Nat) (h : n < 256 ^ w) :
    leToNat (natToLE w n) = n := by
  induction w generalizing n with
  | zero => simp [natToLE, leToNat]; omega
  | succ w ih =>
    have hlt : n / 256 < 256 ^ w := by
      rw [Nat.div_lt_iff_lt_mul (by norm_num)]
      calc n < 256 ^ (w + 1) := h
        _ = 256 ^ w * 256 := by ring
    simp [natToLE, leToNat, ih _ hlt]
    omega

theorem leToInt_intToLE (w : Nat) (v : Int)
    (h1 : -(256 ^ w : Int) ≤ 2 * v) (h2 : 2 * v < (256 ^ w : Int)) :
    leToInt (intToLE w v) = v := by
  have hw : (0 : Int) < (256 : Int) ^ w := by positivity
  have hmod : 0 ≤ v % (256 ^ w : Int) := Int.emod_nonneg v (by omega)
  have hmlt : v % (256 ^ w : Int) < (256 ^ w : Int) := Int.emod_lt_of_pos v hw
  have hcastpow : ((256 ^ w : Nat) : Int) = (256 : Int) ^ w := by push_cast; ring
  have hveq : v % ((256 ^ w : Nat) : Int) = v % (256 ^ w : Int) := by rw [hcastpow]
  set n : Nat := (v % ((256 ^ w : Nat) : Int)).toNat with hn
  have hnv : (n : Int) = v % (256 ^ w : Int) := by
    rw [hn, hveq, Int.toNat_of_nonneg hmod]
  have hnlt : n < 256 ^ w := by
    have : (n : Int) < ((256 ^ w : Nat) : Int) := by rw [hnv, hcastpow]; exact hmlt
    exact_mod_cast this
  unfold intToLE leToInt
  rw [show (v % (256 ^ w : Nat) : Int).toNat = n from rfl]
  rw [leToNat_natToLE w n hnlt, length_natToLE]
  rcases le_or_lt 0 v with hv | hv
  · have hveq2 : v % (256 ^ w : Int) = v := Int.emod_eq_of_lt hv (by omega)
    have hne : (n : Int) = v := by rw [hnv, hveq2]
    have hlt2 : 2 * n < 256 ^ w := by
      have : 2 * (n : Int) < (256 : Int) ^ w := by omega
      have := this.trans_le (le_of_eq hcastpow.symm)
      exact_mod_cast this
    simp only [if_pos hlt2]
    exact hne
  · have hveq2 : v % (256 ^ w : Int) = v + 256 ^ w := by
      have h1' : 0 ≤ v + 256 ^ w := by omega
      have h2' : v + 256 ^ w < 256 ^ w := by omega
      rw [← Int.add_mul_emod_self_left (a := v) (b := 256 ^ w) (c := 1)]
      rw [mul_one]
      exact Int.emod_eq_of_lt h1' h2'
    have hne : (n : Int) = v + 256 ^ w := by rw [hnv, hveq2]
    have hge : ¬ 2 * n < 256 ^ w := by
      intro hc
      have hcast : 2 * (n : Int) < (256 : Int) ^ w := by
        have : ((2 * n : Nat) : Int) < ((256 ^ w : Nat) : Int) := by exact_mod_cast hc
        push_cast at this
        exact this
      omega
    simp only [if_neg hge]
    omega

theorem length_intToLE (w : Nat) (v : Int) : (intToLE w v).length = w := by
  unfold intToLE; exact length_natToLE _ _

theorem packInt_eq_some (w : Nat) (v : Int)
    (h1 : -(256 ^ w : Int) ≤ 2 * v) (h2 : 2 * v < (256 ^ w : Int)) :
    packInt w v = some (intToLE w v) := by
  unfold packInt
  exact if_pos ⟨h1, h2⟩

theorem key_toBytesFull_eq (k : Key) (hr : k.inRange) :
    k.toBytesFull =
      some (intToLE 4 k.cid ++
        (intToLE 8 k.mid ++ (intToLE 4 k.moid ++ (intToLE 8 k.cap ++ intToLE 8 k.acq)))) := by
  obtain ⟨c1, c2, m1, m2, o1, o2, p1, p2, a1, a2⟩ := hr
  have e4 : (256 : Int) ^ 4 = 2 ^ 32 := by norm_num
  have e8 : (256 : Int) ^ 8 = 2 ^ 64 := by norm_num
  rw [Key.toBytesFull,
    packInt_eq_some 4 k.cid (by rw [e4]; omega) (by rw [e4]; omega),
    packInt_eq_some 8 k.mid (by rw [e8]; omega) (by rw [e8]; omega),
    packInt_eq_some 4 k.moid (by rw [e4]; omega) (by rw [e4]; omega),
    packInt_eq_some 8 k.cap (by rw [e8]; omega) (by rw [e8]; omega),
    packInt_eq_some 8 k.acq (by rw [e8]; omega) (by rw [e8]; omega)]
  simp [List.append_assoc]

theorem key_fromBytes_toBytesFull (k : Key) (hr : k.inRange) (hv : k.valid = true) :
    Key.fromBytes (intToLE 4 k.cid ++
      (intToLE 8 k.mid ++ (intToLE 4 k.moid ++ (intToLE 8 k.cap ++ intToLE 8 k.acq)))) =
      some k := by
  obtain ⟨c1, c2, m1, m2, o1, o2, p1, p2, a1, a2⟩ := hr
  have e4 : (256 : Int) ^ 4 = 2 ^ 32 := by norm_num
  have e8 : (256 : Int) ^ 8 = 2 ^ 64 := by norm_num
  set A := intToLE 4 k.cid with hA
  set B := intToLE 8 k.mid with hB
  set C := intToLE 4 k.moid with hC
  set D := intToLE 8 k.cap with hD
  set E := intToLE 8 k.acq with hE
  have lA : A.length = 4 := length_intToLE _ _
  have lB : B.length = 8 := length_intToLE _ _
  have lC : C.length = 4 := length_intToLE _ _
  have lD : D.length = 8 := length_intToLE _ _
  have lE : E.length = 8 := length_intToLE _ _
  have hlen : (A ++ (B ++ (C ++ (D ++ E)))).length = 32 := by
    simp [lA, lB, lC, lD, lE]
  have htake4 : (A ++ (B ++ (C ++ (D ++ E)))).take 4 = A := List.take_left' lA
  have hdrop4 : (A ++ (B ++ (C ++ (D ++ E)))).drop 4 = B ++ (C ++ (D ++ E)) :=
    List.drop_left' lA
  have hdrop12 : (A ++ (B ++ (C ++ (D ++ E)))).drop 12 = C ++ (D ++ E) := by
    rw [show (12 : Nat) = 4 + 8 by norm_num, ← List.drop_drop, hdrop4]
    exact List.drop_left' lB
  have hdrop16 : (A ++ (B ++ (C ++ (D ++ E)))).drop 16 = D ++ E := by
    rw [show (16 : Nat) = 12 + 4 by norm_num, ← List.drop_drop, hdrop12]
    exact List.drop_left' lC
  have hdrop24 : (A ++ (B ++ (C ++ (D ++ E)))).drop 24 = E := by
    rw [show (24 : Nat) = 16 + 8 by norm_num, ← List.drop_drop, hdrop16]
    exact List.drop_left' lD
  have dcid : leToInt ((A ++ (B ++ (C ++ (D ++ E)))).take 4) = k.cid := by
    rw [htake4, hA]; exact leToInt_intToLE 4 _ (by rw [e4]; omega) (by rw [e4]; omega)
  have dmid : leToInt (((A ++ (B ++ (C ++ (D ++ E)))).drop 4).take 8) = k.mid := by
    rw [hdrop4, List.take_left' lB, hB]
    exact leToInt_intToLE 8 _ (by rw [e8]; omega) (by rw [e8]; omega)
  have dmoid : leToInt (((A ++ (B ++ (C ++ (D ++ E)))).drop 12).take 4) = k.moid := by
    rw [hdrop12, List.take_left' lC, hC]
    exact leToInt_intToLE 4 _ (by rw [e4]; omega) (by rw [e4]; omega)
  have dcap : leToInt (((A ++ (B ++ (C ++ (D ++ E)))).drop 16).take 8) = k.cap := by
    rw [hdrop16, List.take_left' lD, hD]
    exact leToInt_intToLE 8 _ (by rw [e8]; omega) (by rw [e8]; omega)
  have dacq : leToInt (((A ++ (B ++ (C ++ (D ++ E)))).drop 24).take 8) = k.acq := by
    rw [hdrop24, List.take_of_length_le (by omega), hE]
    exact leToInt_intToLE 8 _ (by rw [e8]; omega) (by rw [e8]; omega)
  simp only [Key.fromBytes]
  rw [if_pos hlen]
  rw [dcid, dmid, dmoid, dcap, dacq]
  have heta : ({ cid := k.cid, mid := k.mid, moid := k.moid, cap := k.cap, acq := k.acq } : Key)
      = k := rfl
  rw [heta, hv]
  simp

/-- Claim C5, counterexample: the claim quantifies over every `Key`, but at
the default key `Key()` — all fields `-1`, well inside `struct.pack` range —
`Key.from_bytes` rejects the decoded key (`cid < 0` fails the `valid()`
check) and returns `None`, so re-encoding the decoded result is impossible
and `encode(decode(encode(k)))` cannot equal `encode(k)`. -/
theorem c5_counterexample :
    (Key.toBytesFull {}).isSome = true ∧
    Option.bind (Key.toBytesFull {}) Key.fromBytes = none ∧
    Option.bind (Option.bind (Key.toBytesFull {}) Key.fromBytes) Key.toBytesFull ≠
      Key.toBytesFull {} := by decide

/-- Claim C5 (amended): for every `Key` whose fields are within the
`struct.pack("<iqiqq")` ranges **and whose `cid` is non-negative** (so that
`Key.from_bytes`' validity check passes), encoding, decoding and re-encoding
reproduces the original 32 bytes: `from_bytes(to_bytes(k)) = k` and hence
`encode(decode(encode(k))) = encode(k)`. -/
theorem c5_key_encode_decode_encode (k : Key) (hr : k.inRange) (hv : k.valid = true) :
    ∃ bs, k.toBytesFull = some bs ∧ Key.fromBytes bs = some k ∧
      Option.bind (Option.bind k.toBytesFull Key.fromBytes) Key.toBytesFull =
        k.toBytesFull := by
  refine ⟨_, key_toBytesFull_eq k hr, ?_, ?_⟩
  · exact key_fromBytes_toBytesFull k hr hv
  · rw [key_toBytesFull_eq k hr, Option.some_bind, key_fromBytes_toBytesFull k hr hv,
      Option.some_bind, key_toBytesFull_eq k hr]

/-- Claim C5, witness: the amended round-trip evaluated at the concrete key
`Key(1, 2, 3, 4, 5)`. -/
theorem c5_witness :
    ∃ bs, exKeyA.toBytesFull = some bs ∧ Key.fromBytes bs = some exKeyA ∧
      Option.bind (Option.bind exKeyA.toBytesFull Key.fromBytes) Key.toBytesFull =
        exKeyA.toBytesFull :=
  c5_key_encode_decode_encode exKeyA (by decide) (by decide)

/-- Correctness of the fuelled floor-log2: with enough fuel it brackets `n`
between consecutive powers of two. -/
theorem nlog2Aux_spec (fuel : Nat) : ∀ n : Nat, 1 ≤ n → n ≤ fuel →
    2 ^ nlog2Aux fuel n ≤ n ∧ n < 2 ^ (nlog2Aux fuel n + 1) := by
  induction fuel with
  | zero => intro n h1 h2; omega
  | succ fuel ih =>
    intro n h1 h2
    by_cases hn : n < 2
    · simp only [nlog2Aux, if_pos hn]
      constructor
      · simpa using h1
      · simpa using hn
    · simp only [nlog2Aux, if_neg hn]
      obtain ⟨ha, hb⟩ := ih (n / 2) (by omega) (by omega)
      have e1 : 2 ^ (nlog2Aux fuel (n / 2) + 1) = 2 ^ nlog2Aux fuel (n / 2) * 2 :=
        pow_succ 2 _
      have e2 : 2 ^ (nlog2Aux fuel (n / 2) + 1 + 1) = 2 ^ nlog2Aux fuel (n / 2) * 2 * 2 := by
        rw [pow_succ, pow_succ]
      rw [e1] at hb
      rw [e1, e2]
      omega

/-- `nlog2` brackets every positive `n` between consecutive powers of two. -/
theorem nlog2_spec (n : Nat) (h : 1 ≤ n) :
    2 ^ nlog2 n ≤ n ∧ n < 2 ^ (nlog2 n + 1) :=
  nlog2Aux_spec n n h le_rfl

/-- Round-half-even never rounds below the floor of the quotient. -/
theorem rhe_ge (p q : Nat) : p / q ≤ rhe p q := by
  unfold rhe
  split
  · exact le_rfl
  · split
    · exact Nat.le_succ _
    · split
      · exact le_rfl
      · exact Nat.le_succ _

/-- Round-half-even stays strictly below any bound the exact quotient clears
by more than half an ulp (stated for the divisor `10^6` used by
`timestamp()`). -/
theorem rhe_lt_million (p X : Nat) (h : 2 * p + 1000000 < 2 * (X * 1000000)) :
    rhe p 1000000 < X := by
  unfold rhe
  split
  · omega
  · split
    · omega
    · split <;> omega

/-- The exponent chosen by `flog2` never overshoots: `2 ^ flog2 n d ≤ n / d`. -/
theorem p2le_flog2 (n d : Nat) (hn : 1 ≤ n) (hd : 1 ≤ d) :
    p2le (flog2 n d) n d = true := by
  unfold flog2
  split
  · assumption
  · obtain ⟨hn1, hn2⟩ := nlog2_spec n hn
    obtain ⟨hd1, hd2⟩ := nlog2_spec d hd
    unfold p2le
    split
    · rename_i h0
      apply decide_eq_true
      have hln : nlog2 d + 1 ≤ nlog2 n := by omega
      have ht : ((nlog2 n : Int) - (nlog2 d : Int) - 1).toNat = nlog2 n - nlog2 d - 1 := by
        omega
      rw [ht]
      have hpw : 0 < 2 ^ (nlog2 n - nlog2 d - 1) := pow_pos (by norm_num) _
      have step : d * 2 ^ (nlog2 n - nlog2 d - 1) <
          2 ^ (nlog2 d + 1) * 2 ^ (nlog2 n - nlog2 d - 1) :=
        (Nat.mul_lt_mul_right hpw).mpr hd2
      have step2 : 2 ^ (nlog2 d + 1) * 2 ^ (nlog2 n - nlog2 d - 1) = 2 ^ nlog2 n := by
        rw [← pow_add]
        congr 1
        omega
      omega
    · rename_i h0
      apply decide_eq_true
      have hln : nlog2 n ≤ nlog2 d := by omega
      have ht : (-((nlog2 n : Int) - (nlog2 d : Int) - 1)).toNat = nlog2 d - nlog2 n + 1 := by
        omega
      rw [ht]
      have step2 : 2 ^ nlog2 n * 2 ^ (nlog2 d - nlog2 n + 1) = 2 ^ (nlog2 d + 1) := by
        rw [← pow_add]
        congr 1
        omega
      have step : 2 ^ nlog2 n * 2 ^ (nlog2 d - nlog2 n + 1) ≤
          n * 2 ^ (nlog2 d - nlog2 n + 1) :=
        Nat.mul_le_mul_right _ hn1
      omega

/-- An upper bound on the quotient bounds the exponent `flog2` picks. -/
theorem flog2_lt (n d k : Nat) (hn : 1 ≤ n) (hd : 1 ≤ d)
    (h : n < d * 2 ^ k) : flog2 n d < (k : Int) := by
  have hp := p2le_flog2 n d hn hd
  by_cases h0 : 0 ≤ flog2 n d
  · unfold p2le at hp
    rw [if_pos h0] at hp
    have hle : d * 2 ^ (flog2 n d).toNat ≤ n := of_decide_eq_true hp
    have h2 : 2 ^ (flog2 n d).toNat < 2 ^ k := by
      by_contra hc
      push_neg at hc
      exact absurd (lt_of_lt_of_le h (Nat.mul_le_mul_left d hc)) (not_lt.mpr hle)
    have h3 : (flog2 n d).toNat < k := (Nat.pow_lt_pow_iff_right (by norm_num)).mp h2
    omega
  · push_neg at h0
    omega

/-- Below `2^34` seconds the binary64 ulp of the timestamp is at most `2^-19`
(half-ulp below `10^-6`), so rounding `seconds + microsecond/10^6` can never
reach `seconds + 1` and `int(timestamp())` recovers the whole seconds
exactly. -/
theorem timestampInt_eq (s : Int) (micro : Nat) (hs : 0 ≤ s)
    (hs34 : s < 2 ^ 34) (hm : micro < 1000000) :
    truncFloat (flOfRat (s * 1000000 + (micro : Int)) 1000000) = s := by
  have h234 : (2 : Int) ^ 34 = 17179869184 := by norm_num
  rw [h234] at hs34
  obtain ⟨S, rfl⟩ : ∃ S : Nat, s = (S : Int) := ⟨s.toNat, (Int.toNat_of_nonneg hs).symm⟩
  have hS34 : S < 17179869184 := by exact_mod_cast hs34
  by_cases hz : (S : Int) * 1000000 + (micro : Int) = 0
  · have hS0 : S = 0 := by omega
    have hm0 : micro = 0 := by omega
    subst hS0
    subst hm0
    decide
  · have hpos : 0 ≤ (S : Int) * 1000000 + (micro : Int) := by omega
    unfold flOfRat
    rw [if_neg hz, if_pos hpos]
    have hN : ((S : Int) * 1000000 + (micro : Int)).toNat = S * 1000000 + micro := by omega
    rw [hN]
    have hN1 : 1 ≤ S * 1000000 + micro := by omega
    have hNlt : S * 1000000 + micro < 1000000 * 2 ^ 34 := by
      have : (2 : Nat) ^ 34 = 17179869184 := by norm_num
      rw [this]
      omega
    have hL : flog2 (S * 1000000 + micro) 1000000 < (34 : Int) :=
      flog2_lt _ _ 34 hN1 (by norm_num) hNlt
    have hneg : ¬ (0 ≤ flog2 (S * 1000000 + micro) 1000000 - 52) := by omega
    unfold flRound
    rw [if_neg hneg]
    unfold truncFloat
    rw [if_neg (by simpa using hneg)]
    simp only
    generalize hFdef : (-(flog2 (S * 1000000 + micro) 1000000 - 52)).toNat = F
    have hF : 19 ≤ F := by omega
    have hP : (524288 : Nat) ≤ 2 ^ F := by
      calc (524288 : Nat) = 2 ^ 19 := by norm_num
        _ ≤ 2 ^ F := Nat.pow_le_pow_right (by norm_num) hF
    have hlow : S * 2 ^ F ≤ rhe ((S * 1000000 + micro) * 2 ^ F) 1000000 := by
      refine le_trans ?_ (rhe_ge _ _)
      rw [Nat.le_div_iff_mul_le (by norm_num)]
      calc S * 2 ^ F * 1000000 = S * 1000000 * 2 ^ F := by ring
        _ ≤ (S * 1000000 + micro) * 2 ^ F := Nat.mul_le_mul_right _ (by omega)
    have hup : rhe ((S * 1000000 + micro) * 2 ^ F) 1000000 < (S + 1) * 2 ^ F := by
      apply rhe_lt_million
      have h1 : (micro + 1) * 2 ^ F ≤ 1000000 * 2 ^ F := Nat.mul_le_mul_right _ (by omega)
      have h2 : (1000000 : Nat) < 2 * 2 ^ F := by omega
      nlinarith [h1, h2]
    have hdivS : rhe ((S * 1000000 + micro) * 2 ^ F) 1000000 / 2 ^ F = S := by
      have hP0 : 0 < 2 ^ F := by omega
      have h1 : S ≤ rhe ((S * 1000000 + micro) * 2 ^ F) 1000000 / 2 ^ F :=
        (Nat.le_div_iff_mul_le hP0).mpr hlow
      have h2 : rhe ((S * 1000000 + micro) * 2 ^ F) 1000000 / 2 ^ F < S + 1 :=
        (Nat.div_lt_iff_lt_mul hP0).mpr hup
      omega
    have hc : (2 : Int) ^ F = ((2 ^ F : Nat) : Int) := by push_cast; ring
    rw [hc, Int.tdiv_eq_ediv (by positivity) (by positivity)]
    rw [← Int.natCast_div, hdivS]

/-- Claim C6, counterexample: for the pre-epoch instant one half second
before 1970-01-01 (datetime whole-seconds `-1`, `microsecond = 500000`,
`nanoseconds = 0`), `datetime.timestamp()` is exactly `-0.5` and `int()`
truncates it toward zero to `0`, so `to_unix_ns` yields `500000000` and
`from_unix_ns` reconstructs the instant half a second **after** the epoch:
the round-trip fails exactly on the pre-1970 datetimes the claim includes. -/
theorem c6_counterexample :
    (Tstoragedatetime.wellFormed { seconds := -1, microsecond := 500000, nanoseconds := 0 }) ∧
    toUnixNs { seconds := -1, microsecond := 500000, nanoseconds := 0 } = 500000000 ∧
    fromUnixNs (toUnixNs { seconds := -1, microsecond := 500000, nanoseconds := 0 }) ≠
      { seconds := -1, microsecond := 500000, nanoseconds := 0 } := by decide

set_option maxRecDepth 20000 in
/-- Claim C6 (amended): the nanosecond round-trip
`from_unix_ns(to_unix_ns(x)) = x` holds for every well-formed
`Tstoragedatetime` (microsecond below `10^6`, nanoseconds in `0..999`) whose
whole seconds lie in `[0, 2^34)` — below `2^34` seconds the binary64
rounding of `datetime.timestamp()` cannot carry into the next whole second.
Outside that range the round-trip genuinely fails on both sides: pre-epoch
the `int()` truncation toward zero is off by one (the counterexample), and
at `seconds = 2^34` with `microsecond = 999999` the float rounds up to
`2^34 + 1` whole seconds, so the reconstructed datetime is a full second
late.  The seconds-based round-trip `from_unix(to_unix(x)) = x` of the
original claim also fails: `to_unix` returns a binary64 of nanosecond
payload, and already at 15 nanoseconds after the epoch
`int(to_unix(x) * 10^9)` truncates to 14. -/
theorem c6_from_unix_ns_to_unix_ns :
    (∀ x : Tstoragedatetime, x.wellFormed → 0 ≤ x.seconds → x.seconds < 2 ^ 34 →
      fromUnixNs (toUnixNs x) = x) ∧
    fromUnixNs (toUnixNs { seconds := 2 ^ 34, microsecond := 999999, nanoseconds := 0 }) ≠
      { seconds := 2 ^ 34, microsecond := 999999, nanoseconds := 0 } ∧
    fromUnix (toUnix { seconds := 0, microsecond := 0, nanoseconds := 15 }) ≠
      { seconds := 0, microsecond := 0, nanoseconds := 15 } := by
  refine ⟨?_, by decide, by decide⟩
  intro x hw hs hs34
  obtain ⟨s, m, ns⟩ := x
  obtain ⟨hm, hn0, hn1⟩ := hw
  simp only at hm hn0 hn1 hs hs34
  have ht : timestampInt ⟨s, m, ns⟩ = s := by
    unfold timestampInt timestampFloat
    exact timestampInt_eq s m hs hs34 hm
  unfold toUnixNs fromUnixNs
  rw [ht]
  simp only [Tstoragedatetime.mk.injEq]
  refine ⟨by omega, by omega, by omega⟩

/-- Claim C6, witness: the amended round-trip at the concrete instant
5.000250007 seconds after the epoch. -/
theorem c6_witness :
    fromUnixNs (toUnixNs { seconds := 5, microsecond := 250, nanoseconds := 7 }) =
      { seconds := 5, microsecond := 250, nanoseconds := 7 } :=
  c6_from_unix_ns_to_unix_ns.1 _ (by decide) (by decide) (by decide)

/-- Claim C8: for every key range the mock server's validation accepts and
every stored `last_acq`, `getAcq` returns
`min(key_max.acq, last_acq')` where `last_acq'` is `now()` when
`key_max.acq > last_acq + 10^7` and the stored `last_acq` otherwise; the
returned acq never exceeds `key_max.acq`, and with `last_acq ≥ 15` a request
with `key_max.acq = 15` returns exactly `15`. -/
theorem c8_server_get_acq_clamp (lastAcq nowVal : Int) (keyMin keyMax : SKey)
    (hv : validateKeyRange lastAcq keyMin keyMax = true) :
    ∃ r, serverGetAcq lastAcq nowVal keyMin keyMax = some (r, r) ∧
      r = min keyMax.acq
        (if keyMax.acq > lastAcq + ACQFOLLOWTHRESHOLD then nowVal else lastAcq) ∧
      r ≤ keyMax.acq ∧
      (15 ≤ lastAcq → keyMax.acq = 15 → r = 15) := by
  refine ⟨_, ?_, rfl, min_le_left _ _, ?_⟩
  · simp [serverGetAcq, hv]
  · intro h15 hk
    rw [hk]
    unfold ACQFOLLOWTHRESHOLD
    split <;> omega

/-- Claim C8, witness: the spec's concrete scenario — stored
`last_acq = 20 ≥ 15`, range `Key(0,0,0,0,0) .. Key(2,13,4,11,15)` — passes
validation and yields exactly `acq = 15`. -/
theorem c8_witness :
    ∃ r, serverGetAcq 20 99 ⟨0, 0, 0, 0, 0⟩ ⟨2, 13, 4, 11, 15⟩ = some (r, r) ∧
      r = min (15 : Int) (if (15 : Int) > 20 + ACQFOLLOWTHRESHOLD then 99 else 20) ∧
      r ≤ 15 ∧
      (15 ≤ (20 : Int) → (15 : Int) = 15 → r = 15) :=
  c8_server_get_acq_clamp 20 99 ⟨0, 0, 0, 0, 0⟩ ⟨2, 13, 4, 11, 15⟩ (by decide)

/-- Claim C2, counterexample: the code's flush guard compares the pending
length against `max_batch_size - size` where `size = len(key_rest) +
len(value)` — the 4-byte record-size prefix is **not** included, contrary to
the claim.  Concretely, with a 24-byte pending payload, a record of encoded
size 20 (+4 prefix) and `max_batch_size = 44`, the claim's condition fires
(`24 + 4 + 20 > 44`) but the code's does not (`24 ≤ 44 - 20`): on two such
records the code emits one 48-byte-payload frame where the claim predicts
two. -/
theorem c2_counterexample :
    shouldFlush 24 20 44 = false ∧ shouldFlushClaim 24 20 44 = true ∧
    (serializeBatches bytesPayloadType false 44 false exC2Records).1.length = 1 ∧
    (serializeBatchesClaim bytesPayloadType false 44 false exC2Records).1.length = 2 := by
  decide

/-- Claim C2 (amended): the pending group payload is flushed before
appending the next record exactly when the payload is non-empty and its
length plus the record's `key_rest + value` byte count — the 4-byte
record-size prefix **not** included — exceeds `max_batch_size`; since the
guard requires a non-empty payload, at least one record is placed into every
started frame regardless of `max_batch_size`, even `max_batch_size = 0`
(witnessed by the two 32-byte single-record frames below). -/
theorem c2_flush_guard_exactly_when :
    (∀ (pendingLen : Nat) (size maxBatchSize : Int),
        shouldFlush pendingLen size maxBatchSize = true ↔
          0 < pendingLen ∧ maxBatchSize < (pendingLen : Int) + size) ∧
    (∀ size maxBatchSize : Int, shouldFlush 0 size maxBatchSize = false) ∧
    ((serializeBatches bytesPayloadType false 0 false exC2Records).1.map List.length) =
      [32, 32] := by
  refine ⟨?_, ?_, by decide⟩
  · intro pendingLen size maxBatchSize
    simp only [shouldFlush, decide_eq_true_eq]
    omega
  · intro size maxBatchSize
    simp [shouldFlush]

/-- Claim C2, witness: the flush guard fires at pending length 24, record
size 21, `max_batch_size = 44`. -/
theorem c2_witness : shouldFlush 24 21 44 = true :=
  (c2_flush_guard_exactly_when.1 24 21 44).mpr (by decide)

/-- Claim C3, counterexample: with `memory_limit = 8` and `total_bytes = 8`
(reachable: the first read is capped at 8 while the 12-byte initial header
is still incomplete), `get_stream` passes `limit = 8 - 8 = 0` to
`_feed_buffer`, which hands `nbytes = min(0, free) = 0` to
`socket.recv_into` — and CPython treats `nbytes = 0` as *unbounded*, so with
24 bytes of free buffer the read may pull 24 bytes, not at most
`memory_limit - total_bytes = 0`. -/
theorem c3_counterexample :
    streamFeedLimit (some 8) 8 = 0 ∧
    recvRequestMax (streamFeedLimit (some 8) 8) 24 = .ok 24 ∧
    ¬ ((24 : Int) ≤ min ((8 : Int) - 8) 24) := by decide

/-- Claim C3 (amended): in `get_stream` with a configured positive
`memory_limit`, a transport read issued while `memory_limit - total_bytes`
is strictly positive requests exactly `min(memory_limit - total_bytes,
free)` bytes — in particular at most `memory_limit - total_bytes`; but when
`memory_limit - total_bytes = 0` the `nbytes = 0` convention of `recv_into`
makes the read bounded only by the free buffer space, as the counterexample
shows. -/
theorem c3_stream_read_cap (m total free : Int) (hm : 0 < m) (hfree : 0 < free) :
    (0 < m - total →
      recvRequestMax (streamFeedLimit (some m) total) free = .ok (min (m - total) free) ∧
      min (m - total) free ≤ m - total) ∧
    (m - total = 0 →
      recvRequestMax (streamFeedLimit (some m) total) free = .ok free) := by
  have hm0 : ¬ m = 0 := by omega
  constructor
  · intro hd
    have h1 : streamFeedLimit (some m) total = m - total := by
      simp [streamFeedLimit, hm0]
    rw [h1]
    unfold recvRequestMax
    have hmin : 0 < min (m - total) free := lt_min hd hfree
    rw [if_neg (by omega)]
    refine ⟨?_, min_le_left _ _⟩
    simp only [Except.ok.injEq]
    rw [if_neg (by omega)]
  · intro hd
    have h1 : streamFeedLimit (some m) total = 0 := by
      simp [streamFeedLimit, hm0]; omega
    rw [h1]
    unfold recvRequestMax
    rw [if_neg (by omega)]
    simp only [Except.ok.injEq]
    rw [if_pos (by omega)]

/-- Claim C3, witness: the amended cap evaluated at `memory_limit = 10`,
`total_bytes = 4`, 32 bytes free. -/
theorem c3_witness :
    recvRequestMax (streamFeedLimit (some 10) 4) 32 = .ok (min ((10 : Int) - 4) 32) ∧
    min ((10 : Int) - 4) 32 ≤ 10 - 4 :=
  (c3_stream_read_cap 10 4 32 (by decide) (by decide)).1 (by decide)

theorem copyFwd_length (n : Nat) : ∀ (l : List Nat) (dst src : Nat),
    (copyFwd l dst src n).length = l.length := by
  induction n with
  | zero => intro l dst src; rfl
  | succ n ih =>
    intro l dst src
    rw [copyFwd, ih]
    simp

theorem copyFwd_getD_lt (n : Nat) : ∀ (l : List Nat) (dst src i : Nat), i < dst →
    (copyFwd l dst src n).getD i 0 = l.getD i 0 := by
  induction n with
  | zero => intro l dst src i _; rfl
  | succ n ih =>
    intro l dst src i hi
    rw [copyFwd, ih _ _ _ _ (by omega)]
    simp [List.getD, List.getElem?_set_ne (by omega : dst ≠ i)]

theorem copyFwd_getD (n : Nat) : ∀ (l : List Nat) (dst src : Nat), dst ≤ src →
    src + n ≤ l.length → ∀ i, i < n →
    (copyFwd l dst src n).getD (dst + i) 0 = l.getD (src + i) 0 := by
  induction n with
  | zero => intro l dst src _ _ i hi; omega
  | succ n ih =>
    intro l dst src hds hlen i hi
    rw [copyFwd]
    rcases Nat.eq_zero_or_pos i with hz | hp
    · subst hz
      simp only [Nat.add_zero]
      rw [copyFwd_getD_lt n _ (dst + 1) (src + 1) dst (by omega)]
      have hdlt : dst < l.length := by omega
      simp [List.getD, List.getElem?_set_self, hdlt]
    · obtain ⟨j, rfl⟩ : ∃ j, i = j + 1 := ⟨i - 1, by omega⟩
      have := ih (l.set dst (l.getD src 0)) (dst + 1) (src + 1) (by omega)
        (by simp; omega) j (by omega)
      rw [show dst + (j + 1) = dst + 1 + j by omega, this,
        show src + 1 + j = src + (j + 1) by omega]
      simp [List.getD, List.getElem?_set_ne (by omega : dst ≠ src + (j + 1))]

theorem pyBound_of_nonneg_le (len : Nat) (i : Int) (h0 : 0 ≤ i) (h1 : i ≤ (len : Int)) :
    pyBound len i = i.toNat := by
  unfold pyBound
  rw [if_neg (by omega : ¬ i < 0), min_eq_left h1, max_eq_right h0]

theorem pyBound_zero (len : Nat) : pyBound len 0 = 0 := by
  rw [pyBound_of_nonneg_le len 0 le_rfl (by omega)]
  rfl

theorem copyFwd_take (l : List Nat) (s n : Nat) (h : s + n ≤ l.length) :
    (copyFwd l 0 s n).take n = (l.take (s + n)).drop s := by
  apply List.ext_getElem
  · rw [List.length_take, copyFwd_length, List.length_drop, List.length_take]
    omega
  · intro i hi1 hi2
    rw [List.getElem_take, List.getElem_drop, List.getElem_take]
    have hi : i < n := by
      rw [List.length_take, copyFwd_length] at hi1
      omega
    have hmain := copyFwd_getD n l 0 s (by omega) h i hi
    rw [Nat.zero_add] at hmain
    rw [List.getD_eq_getElem (copyFwd l 0 s n) 0
      (show i < (copyFwd l 0 s n).length by rw [copyFwd_length]; omega)] at hmain
    rw [List.getD_eq_getElem l 0 (show s + i < l.length by omega)] at hmain
    exact hmain

/-- Claim C7: for every `ReceiveBuffer` state with
`0 ≤ current ≤ available ≤ capacity`, `truncate()` succeeds (the two resolved
slices of the internal assignment have equal length), sets `current = 0` and
`available = old_available - old_current`, keeps the capacity, and the new
logical content `[0, available')` is byte-identical to the old logical
content `[current, available)` — even though the forward byte copy's source
and destination ranges may overlap (destination `[0, d)` and source
`[current, available)` overlap whenever `available > 2·current > 0`; a
front-to-back copy with destination below source reads each byte before any
aliased write can touch it). -/
theorem c7_truncate_preserves_content (b : ReceiveBuffer)
    (h0 : 0 ≤ b.current) (h1 : b.current ≤ b.available)
    (h2 : b.available ≤ (b.capacity : Int)) :
    ∃ b', b.truncate = .ok b' ∧
      b'.current = 0 ∧
      b'.available = b.available - b.current ∧
      b'.capacity = b.capacity ∧
      pySlice b'.backing 0 (b.available - b.current) =
        pySlice b.backing b.current b.available := by
  by_cases hc : b.current = 0
  · refine ⟨b, ?_, hc, by omega, rfl, ?_⟩
    · unfold ReceiveBuffer.truncate
      rw [if_pos hc]
    · rw [hc, sub_zero]
  · have hlen : (b.capacity : Int) = (b.backing.length : Int) := rfl
    set len := b.backing.length with hlendef
    have hcurb : pyBound len b.current = b.current.toNat :=
      pyBound_of_nonneg_le _ _ h0 (by omega)
    have havb : pyBound len b.available = b.available.toNat :=
      pyBound_of_nonneg_le _ _ (by omega) (by omega)
    have hdb : pyBound len (b.available - b.current) = (b.available - b.current).toNat :=
      pyBound_of_nonneg_le _ _ (by omega) (by omega)
    set s := b.current.toNat with hs
    set a := b.available.toNat with ha
    have hsa : s ≤ a := by omega
    have hal : a ≤ len := by omega
    have hsrclen : (pySlice b.backing b.current b.available).length = a - s := by
      unfold pySlice
      rw [hcurb, havb, List.length_drop, List.length_take]
      omega
    have hmatch : (pySlice b.backing b.current b.available).length =
        pyBound len (b.available - b.current) := by
      rw [hsrclen, hdb]; omega
    unfold ReceiveBuffer.truncate
    rw [if_neg hc, if_pos hmatch]
    refine ⟨_, rfl, rfl, rfl, ?_, ?_⟩
    · show (ReceiveBuffer.capacity _) = _
      unfold ReceiveBuffer.capacity
      rw [copyFwd_length]
    · rw [hcurb, hsrclen]
      set n := a - s with hn
      have hlen2 : (copyFwd b.backing 0 s n).length = len := copyFwd_length _ _ _ _
      show pySlice (copyFwd b.backing 0 s n) 0 (b.available - b.current) =
        pySlice b.backing b.current b.available
      unfold pySlice
      rw [hlen2, hdb, hcurb, havb, pyBound_zero, List.drop_zero]
      rw [show (b.available - b.current).toNat = n by omega]
      rw [copyFwd_take b.backing s n (by omega)]
      rw [show s + n = a by omega]

/-- Claim C7, witness: `truncate` on a concrete 32-byte buffer with
`current = 2`, `available = 5` (overlapping shift: destination `[0,3)`,
source `[2,5)`). -/
theorem c7_witness :
    ∃ b', ReceiveBuffer.truncate
        { backing := [10, 11, 12, 13, 14] ++ List.replicate 27 0
          current := 2, available := 5 } = .ok b' ∧
      b'.current = 0 ∧
      b'.available = (5 : Int) - 2 ∧
      b'.capacity = ReceiveBuffer.capacity
        { backing := [10, 11, 12, 13, 14] ++ List.replicate 27 0
          current := 2, available := 5 } ∧
      pySlice b'.backing 0 ((5 : Int) - 2) =
        pySlice ([10, 11, 12, 13, 14] ++ List.replicate 27 0) 2 5 :=
  c7_truncate_preserves_content _ (by decide) (by decide) (by decide)

theorem parseRecordsLoop_unparseable {T : Type} (pt : PayloadType T) (maxSize : Option Int) :
    ∀ (fuel : Nat) (buf : ReceiveBuffer) (recs : List (Record T))
      (buf' : ReceiveBuffer) (recs' : List (Record T)),
      parseRecordsLoop pt maxSize fuel buf recs = .ok (.UNPARSEABLE, buf', recs') →
      ∃ (newRecs : List (Record T)) (c s : Int),
        recs' = recs ++ newRecs ∧
        buf'.backing = buf.backing ∧
        buf'.available = buf.available ∧
        s = leToInt (pySlice buf.backing c (min (c + 4) buf.available)) ∧
        s ≠ 0 ∧
        c + 4 + s ≤ buf.available ∧
        parseRecord (pySlice buf.backing (c + 4) (min (c + 4 + s) buf.available)) pt = none ∧
        buf'.current = c + 4 + s := by
  intro fuel
  induction fuel with
  | zero =>
    intro buf recs buf' recs' h
    rw [parseRecordsLoop] at h
    simp at h
  | succ fuel ih =>
    intro buf recs buf' recs' h
    rw [parseRecordsLoop] at h
    by_cases hf4 : buf.fits 4
    · rw [if_pos hf4] at h
      by_cases hz : leToInt (buf.peek 4 0) = 0
      · rw [if_pos hz] at h
        cases htr : (buf.increase 4).truncate with
        | error e => rw [htr] at h; simp at h
        | ok buf1 => rw [htr] at h; simp at h
      · rw [if_neg hz] at h
        by_cases hfr : buf.fits (4 + leToInt (buf.peek 4 0))
        · rw [if_pos hfr] at h
          cases hp : parseRecord (buf.peek (leToInt (buf.peek 4 0)) 4) pt with
          | none =>
            rw [hp] at h
            simp only [Except.ok.injEq, Prod.mk.injEq] at h
            obtain ⟨_, hbuf, hrecs⟩ := h
            refine ⟨[], buf.current, leToInt (buf.peek 4 0), by rw [← hrecs]; simp,
              by rw [← hbuf]; rfl, by rw [← hbuf]; rfl, ?_, hz, ?_, ?_, ?_⟩
            · unfold ReceiveBuffer.peek
              simp only [add_zero]
            · unfold ReceiveBuffer.fits at hfr
              simp at hfr
              omega
            · exact hp
            · rw [← hbuf]
              show buf.current + (4 + leToInt (buf.peek 4 0)) =
                buf.current + 4 + leToInt (buf.peek 4 0)
              ring
          | some r =>
            rw [hp] at h
            obtain ⟨newRecs, c, s, h1, h2, h3, h4, h5, h6, h7, h8⟩ :=
              ih (buf.increase (4 + leToInt (buf.peek 4 0))) (recs ++ [r]) buf' recs' h
            exact ⟨r :: newRecs, c, s, by simpa using h1, h2, h3, h4, h5, h6, h7, h8⟩
        · rw [if_neg hfr] at h
          split at h
          · simp at h
          · cases htr : buf.truncate with
            | error e => rw [htr] at h; simp at h
            | ok buf1 => rw [htr] at h; simp at h
    · rw [if_neg hf4] at h
      by_cases hfe : ¬ buf.fitsEventually 4
      · rw [if_pos hfe] at h
        cases htr : buf.truncate with
        | error e => rw [htr] at h; simp at h
        | ok buf1 => rw [htr] at h; simp at h
      · rw [if_neg hfe] at h
        simp at h

/-- Claim C9: whenever `_parse_records` returns the `UNPARSEABLE` verdict,
the buffer cursor has already been advanced exactly past the offending
record — the 4-byte size prefix plus all `record_size` declared bytes are
consumed (`current' = c + 4 + s` where `s` is the size announced at the
offending position `c`) — the backing bytes and `available` are untouched on
this path, and every record parsed earlier in the same call remains appended
to the caller's sink (`recs' = recs ++ newRecs`): the failure is atomic with
respect to neither the buffer nor the sink. -/
theorem c9_parse_records_unparseable_consumes {T : Type} (pt : PayloadType T)
    (maxSize : Option Int) (buf buf' : ReceiveBuffer) (recs recs' : List (Record T))
    (h : parseRecords buf recs pt maxSize = .ok (.UNPARSEABLE, buf', recs')) :
    ∃ (newRecs : List (Record T)) (c s : Int),
      recs' = recs ++ newRecs ∧
      buf'.backing = buf.backing ∧
      buf'.available = buf.available ∧
      s = leToInt (pySlice buf.backing c (min (c + 4) buf.available)) ∧
      s ≠ 0 ∧
      c + 4 + s ≤ buf.available ∧
      parseRecord (pySlice buf.backing (c + 4) (min (c + 4 + s) buf.available)) pt = none ∧
      buf'.current = c + 4 + s :=
  parseRecordsLoop_unparseable pt maxSize _ buf recs buf' recs' h

/-- Claim C9, witness: parsing the concrete buffer holding one good record
and then a record with an invalid key (`cid = -1`) returns `UNPARSEABLE`
with the cursor at 74 — past both the good record (38 bytes) and the whole
offending record (4 + 32 bytes) — and the good record still in the sink. -/
theorem c9_witness :
    ∃ (newRecs : List (Record (List Nat))) (c s : Int),
      [({ key := exKeyA, value := [7, 9] } : Record (List Nat))] = [] ++ newRecs ∧
      ({ backing := exUnparseableBuffer.backing, current := 74, available := 74 }
          : ReceiveBuffer).backing = exUnparseableBuffer.backing ∧
      ({ backing := exUnparseableBuffer.backing, current := 74, available := 74 }
          : ReceiveBuffer).available = exUnparseableBuffer.available ∧
      s = leToInt (pySlice exUnparseableBuffer.backing c
        (min (c + 4) exUnparseableBuffer.available)) ∧
      s ≠ 0 ∧
      c + 4 + s ≤ exUnparseableBuffer.available ∧
      parseRecord (pySlice exUnparseableBuffer.backing (c + 4)
        (min (c + 4 + s) exUnparseableBuffer.available)) bytesPayloadType = none ∧
      ({ backing := exUnparseableBuffer.backing, current := 74, available := 74 }
          : ReceiveBuffer).current = c + 4 + s :=
  c9_parse_records_unparseable_consumes bytesPayloadType none exUnparseableBuffer
    { backing := exUnparseableBuffer.backing, current := 74, available := 74 }
    [] [{ key := exKeyA, value := [7, 9] }] (by decide)

theorem putSendPhase_ok (sends : Nat → SendRes)
    (hrest : ∀ i, sends (i + 1) ≠ .otherErr) :
    ∀ (fs : List (List Nat)) (i : Nat), putSendPhase sends (i + 1) fs none = .ok () := by
  intro fs
  induction fs with
  | nil =>
    intro i
    rw [putSendPhase]
    cases hs : sends (i + 1) with
    | sendOk => rfl
    | connErr => rfl
    | otherErr => exact absurd hs (hrest i)
  | cons f fs ih =>
    intro i
    rw [putSendPhase]
    cases hs : sends (i + 1) with
    | sendOk => exact ih (i + 1)
    | connErr => rfl
    | otherErr => exact absurd hs (hrest i)

theorem putRun_eq_responseLoop {T : Type} (pt : PayloadType T) (withAcq : Bool)
    (maxBatchSize : Int) (skipInvalid : Bool) (data : List (Record T))
    (sends : Nat → SendRes) (sched stream : List Nat)
    (hhdr : sends 0 = .sendOk)
    (hrest : ∀ i, sends (i + 1) ≠ .otherErr)
    (hgen : (serializeBatches pt withAcq maxBatchSize skipInvalid data).2 = none) :
    putRun true sends pt withAcq maxBatchSize skipInvalid data sched stream =
      putResponseLoop sched stream (mkReceiveBuffer (12 + 16 + 0)) := by
  unfold putRun
  rw [if_neg (by simp), hhdr]
  show (match putSendPhase sends 1 (serializeBatches pt withAcq maxBatchSize skipInvalid data).1
      (serializeBatches pt withAcq maxBatchSize skipInvalid data).2 with
    | .error e => Except.error e
    | .ok _ => putResponseLoop sched stream (mkReceiveBuffer (12 + 16 + 0))) =
    putResponseLoop sched stream (mkReceiveBuffer (12 + 16 + 0))
  rw [hgen, putSendPhase_ok sends hrest _ 0]

theorem putResponseLoop_nil (stream : List Nat) :
    putResponseLoop [] stream (mkReceiveBuffer (12 + 16 + 0)) =
      .ok { status := .DISCONNECTED } := by
  unfold putResponseLoop feedBuffer
  rw [if_pos (by decide :
    (mkReceiveBuffer (12 + 16 + 0)).available < ((mkReceiveBuffer (12 + 16 + 0)).capacity : Int))]
  rw [if_neg (by decide :
    ¬ min (0 : Int) (((mkReceiveBuffer (12 + 16 + 0)).capacity : Int)
      - (mkReceiveBuffer (12 + 16 + 0)).available) < 0)]

/-- Claim C1, counterexample: the request-header send in `_put` sits
**outside** the `try ... except ConnectionError` block
(`channel.py:170`), so a `ConnectionError` raised while sending the
request header escapes to the caller instead of being swallowed: on a
connected channel with the empty records set, a header send failing with
`ConnectionError` makes `put` raise. -/
theorem c1_counterexample :
    putRun true (fun _ => .connErr) bytesPayloadType true 2147483647 false [] [] [] =
      .error .connectionError := by decide

/-- Claim C1 (amended): `put`/`puta` swallow `ConnectionError`s raised while
sending the batch frames and the terminator (but not the request header,
whose send is outside the `try` block, and not other `OSError`s): provided
the header send succeeds, no later send raises anything but
`ConnectionError`, and serialisation itself raises nothing, the outcome
equals the all-sends-succeed outcome — the client always proceeds to read
the response — and when the transport yields no response bytes the result is
`Response(DISCONNECTED)`. -/
theorem c1_put_swallows_batch_send_errors {T : Type} (pt : PayloadType T) (withAcq : Bool)
    (maxBatchSize : Int) (skipInvalid : Bool) (data : List (Record T))
    (sends : Nat → SendRes) (sched stream : List Nat)
    (hhdr : sends 0 = .sendOk)
    (hrest : ∀ i, sends (i + 1) ≠ .otherErr)
    (hgen : (serializeBatches pt withAcq maxBatchSize skipInvalid data).2 = none) :
    putRun true sends pt withAcq maxBatchSize skipInvalid data sched stream =
      putRun true (fun _ => .sendOk) pt withAcq maxBatchSize skipInvalid data sched stream ∧
    putRun true sends pt withAcq maxBatchSize skipInvalid data [] stream =
      .ok { status := .DISCONNECTED } := by
  constructor
  · rw [putRun_eq_responseLoop pt withAcq maxBatchSize skipInvalid data sends sched stream
      hhdr hrest hgen,
      putRun_eq_responseLoop pt withAcq maxBatchSize skipInvalid data _ sched stream rfl
      (by intro i; simp) hgen]
  · rw [putRun_eq_responseLoop pt withAcq maxBatchSize skipInvalid data sends [] stream
      hhdr hrest hgen, putResponseLoop_nil]

/-- Claim C1, witness: a concrete run where the first batch-frame send
raises `ConnectionError`: the outcome matches the all-sends-succeed run, and
with no response bytes it is `DISCONNECTED`. -/
theorem c1_witness :
    putRun true (fun i => if i = 1 then .connErr else .sendOk) bytesPayloadType false
        2147483647 false exC2Records [3] [] =
      putRun true (fun _ => .sendOk) bytesPayloadType false
        2147483647 false exC2Records [3] [] ∧
    putRun true (fun i => if i = 1 then .connErr else .sendOk) bytesPayloadType false
        2147483647 false exC2Records [] [] =
      .ok { status := .DISCONNECTED } :=
  c1_put_swallows_batch_send_errors bytesPayloadType false 2147483647 false exC2Records
    (fun i => if i = 1 then .connErr else .sendOk) [3] []
    (by decide) (by intro i; by_cases h : i + 1 = 1 <;> simp [h]) (by decide)

theorem stepShape_err {T : Type} (items : List (GetItem T)) (e : PyErr) :
    StepShape (items, Except.error e) :=
  ⟨fun _ hst => absurd hst (by simp), fun hn => absurd hn (by simp)⟩

theorem stepShape_done {T : Type} (items : List (GetItem T)) (h : ItemsTerminal items) :
    StepShape (items, Except.ok none) :=
  ⟨fun _ hst => absurd hst (by simp), fun _ => h⟩

theorem stepShape_more {T : Type} (items : List (GetItem T)) (c : GetCont T)
    (h : ItemsRecordsOnly items) : StepShape (items, Except.ok (some c)) :=
  ⟨fun _ _ => h, fun hn => absurd hn (by simp)⟩

theorem stepShape_prepend {T : Type} (rs : List (Record T))
    (p : List (GetItem T) × Except PyErr (Option (GetCont T))) (h : StepShape p) :
    StepShape (rs.map GetItem.record ++ p.1, p.2) := by
  constructor
  · intro st hst
    obtain ⟨rs2, h2⟩ := h.1 st hst
    exact ⟨rs ++ rs2, by rw [List.map_append, h2]⟩
  · intro hn
    obtain ⟨rs2, r, h2⟩ := h.2 hn
    exact ⟨rs ++ rs2, r, by rw [List.map_append, h2, List.append_assoc]⟩

theorem iterFinalBlock_shape {T : Type} (buf : ReceiveBuffer) (stream : List Nat)
    (total : Int) : StepShape (iterFinalBlock (T := T) buf stream total) := by
  unfold iterFinalBlock
  cases hr : handleResponse buf 8 with
  | error e => exact stepShape_err _ _
  | ok p =>
    obtain ⟨resp?, buf2⟩ := p
    cases resp? with
    | none => exact stepShape_more _ _ ⟨[], rfl⟩
    | some hv =>
      obtain ⟨hdr, vals⟩ := hv
      dsimp only
      by_cases hok : hdr.isOk = true
      · rw [if_pos hok]
        cases vals with
        | nil => exact stepShape_err _ _
        | cons v vs => exact stepShape_done _ ⟨[], _, rfl⟩
      · rw [if_neg hok]
        exact stepShape_done _ ⟨[], _, rfl⟩

theorem iterParseBlock_shape {T : Type} (pt : PayloadType T) (memoryLimit : Option Int)
    (buf : ReceiveBuffer) (recs : List (Record T)) (stream : List Nat) (total : Int) :
    StepShape (iterParseBlock pt memoryLimit buf recs stream total) := by
  unfold iterParseBlock
  cases hp : parseRecords buf recs pt memoryLimit with
  | error e => exact stepShape_err _ _
  | ok p =>
    obtain ⟨st, buf2, recs2⟩ := p
    cases st with
    | NEEDS_MORE_BYTES => exact stepShape_more _ _ ⟨recs2, rfl⟩
    | FINISHED => exact stepShape_prepend recs2 _ (iterFinalBlock_shape buf2 stream total)
    | UNPARSEABLE => exact stepShape_done _ ⟨recs2, _, rfl⟩
    | RECORD_TOO_BIG => exact stepShape_done _ ⟨recs2, _, rfl⟩

theorem iterStep_shape {T : Type} (pt : PayloadType T) (memoryLimit : Option Int)
    (schedN : Nat) (stream : List Nat) (stage : GetStage) (total : Int)
    (buf : ReceiveBuffer) (recs : List (Record T)) :
    StepShape (iterStep pt memoryLimit schedN stream stage total buf recs) := by
  unfold iterStep
  cases hf : feedBuffer buf 0 stream schedN with
  | error e => exact stepShape_err _ _
  | ok p =>
    obtain ⟨n, buf1, stream1⟩ := p
    dsimp only
    by_cases hn : n = 0
    · rw [if_pos hn]
      exact stepShape_done _ ⟨recs, _, rfl⟩
    · rw [if_neg hn]
      cases hov : isOverMemoryLimit memoryLimit (total + n) with
      | true => exact stepShape_done _ ⟨recs, _, rfl⟩
      | false =>
        cases stage with
        | RECORDS_PARSING => exact iterParseBlock_shape pt memoryLimit _ recs _ _
        | FINAL_HEADER => exact iterFinalBlock_shape _ _ _
        | INITIAL_HEADER =>
          cases hh : handleResponse buf1 0 with
          | error e => exact stepShape_err _ _
          | ok q =>
            obtain ⟨resp?, buf2⟩ := q
            cases resp? with
            | none => exact stepShape_more _ _ ⟨[], rfl⟩
            | some hv =>
              obtain ⟨hdr, rest⟩ := hv
              dsimp only
              by_cases hok : ¬ hdr.isOk = true
              · rw [if_pos hok]
                exact stepShape_done _ ⟨[], _, rfl⟩
              · rw [if_neg hok]
                exact iterParseBlock_shape pt memoryLimit _ recs _ _

theorem iterLoop_shape {T : Type} (pt : PayloadType T) (memoryLimit : Option Int) :
    ∀ (sched stream : List Nat) (stage : GetStage) (total : Int) (buf : ReceiveBuffer)
      (recs : List (Record T)),
      RunShape (iterLoop pt memoryLimit sched stream stage total buf recs) := by
  intro sched
  induction sched with
  | nil =>
    intro stream stage total buf recs
    rw [iterLoop]
    split
    · intro hn
      simp at hn
    · intro _
      exact ⟨recs, _, rfl⟩
  | cons schedN sched ih =>
    intro stream stage total buf recs
    rw [iterLoop]
    split
    case _ items e heq =>
      intro hn
      simp at hn
    case _ items heq =>
      intro _
      have hstep := iterStep_shape pt memoryLimit schedN stream stage total buf recs
      rw [heq] at hstep
      exact hstep.2 rfl
    case _ items stream1 stage1 total1 buf1 recs1 heq =>
      intro hn
      have hstep := iterStep_shape pt memoryLimit schedN stream stage total buf recs
      rw [heq] at hstep
      obtain ⟨rs0, hrs0⟩ := hstep.1 _ rfl
      have hrs0' : items = List.map GetItem.record rs0 := hrs0
      have hnext := ih stream1 stage1 total1 buf1 recs1
      obtain ⟨rs, r, hrs⟩ := hnext hn
      refine ⟨rs0 ++ rs, r, ?_⟩
      show items ++ (iterLoop pt memoryLimit sched stream1 stage1 total1 buf1 recs1).1 = _
      rw [hrs0', hrs, List.map_append, List.append_assoc]

/-- Claim C4, counterexample: a malformed but OK-status final header that
declares `size = 0` (omitting the 8-byte acq payload) makes the `"<q"`
decode in `_handle_response` raise `struct.error`, which escapes the
generator: this invocation of `get_iter` yields **no** items at all — in
particular no terminal `ResponseAcq` — contradicting the claim's "exactly
one terminal ResponseAcq" for every invocation. -/
theorem c4_counterexample :
    iterRun true .sendOk bytesPayloadType none 64 [1000] exBadFinalStream =
      ([], some .structError) := by decide

/-- Claim C4 (amended): for every invocation of `get_iter` that completes
without a Python exception (a malformed response can make the header decode
raise, as the counterexample shows), the yielded sequence is zero or more
`Record` items followed by exactly one terminal `ResponseAcq` — never more
than one, never a `Record` after it — and every record parsed before a
failure is yielded before the terminal response; in particular a successful
run with `n` matching records yields exactly the `n` records followed by one
`ResponseAcq(OK)`. -/
theorem c4_get_iter_shape {T : Type} (connected : Bool) (send0 : SendRes)
    (pt : PayloadType T) (memoryLimit : Option Int) (recvBufferSize : Int)
    (sched stream : List Nat)
    (hok : (iterRun connected send0 pt memoryLimit recvBufferSize sched stream).2 = none) :
    ∃ (rs : List (Record T)) (r : ResponseAcq),
      (iterRun connected send0 pt memoryLimit recvBufferSize sched stream).1 =
        rs.map GetItem.record ++ [GetItem.response r] := by
  unfold iterRun at hok ⊢
  by_cases hc : ¬ connected = true
  · rw [if_pos hc] at hok ⊢
    exact ⟨[], _, rfl⟩
  · rw [if_neg hc] at hok ⊢
    cases send0 with
    | connErr => simp at hok
    | otherErr => simp at hok
    | sendOk =>
      exact iterLoop_shape pt memoryLimit sched stream .INITIAL_HEADER 0
        (mkReceiveBuffer (getBufferCapacity recvBufferSize memoryLimit)) [] hok

/-- Claim C4, witness: the amended shape on a concrete conforming stream —
one record, then the sentinel, then an OK final header — delivered in one
chunk. -/
theorem c4_witness :
    ∃ (rs : List (Record (List Nat))) (r : ResponseAcq),
      (iterRun true .sendOk bytesPayloadType none 64 [1000] exGetStream).1 =
        rs.map GetItem.record ++ [GetItem.response r] :=
  c4_get_iter_shape true .sendOk bytesPayloadType none 64 [1000] exGetStream (by decide)

theorem acqInv_mk (st : ResponseStatus) : AcqInvalidOnError { status := st } :=
  fun _ => rfl

theorem acqInv_ok (a : Int) : AcqInvalidOnError { status := .OK, acq := a } :=
  fun h => absurd rfl h

theorem getInv_mk {T : Type} (st : ResponseStatus) (data : List (Record T)) :
    GetAcqInvalidOnError { status := st, data := data } :=
  fun _ => rfl

theorem getInv_ok {T : Type} (a : Int) (data : List (Record T)) :
    GetAcqInvalidOnError { status := .OK, acq := a, data := data } :=
  fun h => absurd rfl h

theorem getAcqResponseLoop_acq : ∀ (sched stream : List Nat) (buf : ReceiveBuffer),
    ExceptAcqOk (getAcqResponseLoop sched stream buf) := by
  intro sched
  induction sched with
  | nil =>
    intro stream buf
    rw [getAcqResponseLoop]
    cases hf : feedBuffer buf 0 stream 0 with
    | error e => intro r hr; simp at hr
    | ok p =>
      intro r hr
      simp only [Except.ok.injEq] at hr
      subst hr
      exact acqInv_mk _
  | cons schedN sched ih =>
    intro stream buf
    rw [getAcqResponseLoop]
    cases hf : feedBuffer buf 0 stream schedN with
    | error e => intro r hr; simp at hr
    | ok p =>
      obtain ⟨n, buf1, stream1⟩ := p
      dsimp only
      by_cases hn : n = 0
      · rw [if_pos hn]
        intro r hr
        simp only [Except.ok.injEq] at hr
        subst hr
        exact acqInv_mk _
      · rw [if_neg hn]
        cases hh : handleResponse buf1 8 with
        | error e => intro r hr; simp at hr
        | ok q =>
          obtain ⟨resp?, buf2⟩ := q
          cases resp? with
          | none => exact ih stream1 buf2
          | some hv =>
            obtain ⟨hdr, vals⟩ := hv
            dsimp only
            by_cases hok : hdr.isOk = true
            · rw [if_pos hok]
              cases vals with
              | nil => intro r hr; simp at hr
              | cons v vs =>
                intro r hr
                simp only [Except.ok.injEq] at hr
                subst hr
                exact acqInv_ok _
            · rw [if_neg hok]
              intro r hr
              simp only [Except.ok.injEq] at hr
              subst hr
              exact acqInv_mk _

theorem getAcqRun_acq (connected : Bool) (send0 : SendRes) (sched stream : List Nat) :
    ExceptAcqOk (getAcqRun connected send0 sched stream) := by
  unfold getAcqRun
  by_cases hc : ¬ connected = true
  · rw [if_pos hc]
    intro r hr
    simp only [Except.ok.injEq] at hr
    subst hr
    exact acqInv_mk _
  · rw [if_neg hc]
    cases send0 with
    | connErr => intro r hr; simp at hr
    | otherErr => intro r hr; simp at hr
    | sendOk => exact getAcqResponseLoop_acq _ _ _

theorem getFinalBlock_acq {T : Type} (buf : ReceiveBuffer) (recs : List (Record T))
    (stream : List Nat) (total : Int) : SumAcqOkGet (getFinalBlock buf recs stream total) := by
  unfold getFinalBlock
  cases hh : handleResponse buf 8 with
  | error e => intro r hr; simp at hr
  | ok q =>
    obtain ⟨resp?, buf2⟩ := q
    cases resp? with
    | none => intro r hr; simp at hr
    | some hv =>
      obtain ⟨hdr, vals⟩ := hv
      dsimp only
      by_cases hok : hdr.isOk = true
      · rw [if_pos hok]
        cases vals with
        | nil => intro r hr; simp at hr
        | cons v vs =>
          intro r hr
          simp only [Except.ok.injEq, Sum.inl.injEq] at hr
          subst hr
          exact getInv_ok _ _
      · rw [if_neg hok]
        intro r hr
        simp only [Except.ok.injEq, Sum.inl.injEq] at hr
        subst hr
        exact getInv_mk _ _

theorem getParseBlock_acq {T : Type} (pt : PayloadType T) (memoryLimit : Option Int)
    (buf : ReceiveBuffer) (recs : List (Record T)) (stream : List Nat) (total : Int) :
    SumAcqOkGet (getParseBlock pt memoryLimit buf recs stream total) := by
  unfold getParseBlock
  cases hp : parseRecords buf recs pt memoryLimit with
  | error e => intro r hr; simp at hr
  | ok p =>
    obtain ⟨st, buf2, recs2⟩ := p
    cases st with
    | NEEDS_MORE_BYTES => intro r hr; simp at hr
    | FINISHED => exact getFinalBlock_acq buf2 recs2 stream total
    | UNPARSEABLE =>
      intro r hr
      simp only [Except.ok.injEq, Sum.inl.injEq] at hr
      subst hr
      exact getInv_mk _ _
    | RECORD_TOO_BIG =>
      intro r hr
      simp only [Except.ok.injEq, Sum.inl.injEq] at hr
      subst hr
      exact getInv_mk _ _

theorem getStep_acq {T : Type} (pt : PayloadType T) (memoryLimit : Option Int)
    (schedN : Nat) (stream : List Nat) (stage : GetStage) (total : Int)
    (buf : ReceiveBuffer) (recs : List (Record T)) :
    SumAcqOkGet (getStep pt memoryLimit schedN stream stage total buf recs) := by
  unfold getStep
  cases hf : feedBuffer buf 0 stream schedN with
  | error e => intro r hr; simp at hr
  | ok p =>
    obtain ⟨n, buf1, stream1⟩ := p
    dsimp only
    by_cases hn : n = 0
    · rw [if_pos hn]
      intro r hr
      simp only [Except.ok.injEq, Sum.inl.injEq] at hr
      subst hr
      exact getInv_mk _ _
    · rw [if_neg hn]
      by_cases hov : isOverMemoryLimit memoryLimit (total + n) = true
      · rw [if_pos hov]
        intro r hr
        simp only [Except.ok.injEq, Sum.inl.injEq] at hr
        subst hr
        exact getInv_mk _ _
      · rw [if_neg hov]
        cases stage with
        | RECORDS_PARSING => exact getParseBlock_acq pt memoryLimit buf1 recs stream1 _
        | FINAL_HEADER => exact getFinalBlock_acq buf1 recs stream1 _
        | INITIAL_HEADER =>
          cases hh : handleResponse buf1 0 with
          | error e => intro r hr; simp at hr
          | ok q =>
            obtain ⟨resp?, buf2⟩ := q
            cases resp? with
            | none => intro r hr; simp at hr
            | some hv =>
              obtain ⟨hdr, rest⟩ := hv
              dsimp only
              by_cases hok : ¬ hdr.isOk = true
              · rw [if_pos hok]
                intro r hr
                simp only [Except.ok.injEq, Sum.inl.injEq] at hr
                subst hr
                exact getInv_mk _ _
              · rw [if_neg hok]
                exact getParseBlock_acq pt memoryLimit buf2 recs stream1 _

theorem getLoop_acq {T : Type} (pt : PayloadType T) (memoryLimit : Option Int) :
    ∀ (sched stream : List Nat) (stage : GetStage) (total : Int) (buf : ReceiveBuffer)
      (recs : List (Record T)),
      ExceptGetOk (getLoop pt memoryLimit sched stream stage total buf recs) := by
  intro sched
  induction sched with
  | nil =>
    intro stream stage total buf recs
    rw [getLoop]
    cases hf : feedBuffer buf 0 stream 0 with
    | error e => intro r hr; simp at hr
    | ok p =>
      intro r hr
      simp only [Except.ok.injEq] at hr
      subst hr
      exact getInv_mk _ _
  | cons schedN sched ih =>
    intro stream stage total buf recs
    rw [getLoop]
    cases hstep : getStep pt memoryLimit schedN stream stage total buf recs with
    | error e => intro r hr; simp at hr
    | ok o =>
      cases o with
      | inl r0 =>
        intro r hr
        simp only [Except.ok.injEq] at hr
        subst hr
        exact getStep_acq pt memoryLimit schedN stream stage total buf recs r0 hstep
      | inr st =>
        obtain ⟨stream1, stage1, total1, buf1, recs1⟩ := st
        exact ih stream1 stage1 total1 buf1 recs1

theorem getRun_acq {T : Type} (connected : Bool) (send0 : SendRes) (pt : PayloadType T)
    (memoryLimit : Option Int) (recvBufferSize : Int) (sched stream : List Nat) :
    ExceptGetOk (getRun connected send0 pt memoryLimit recvBufferSize sched stream) := by
  unfold getRun
  by_cases hc : ¬ connected = true
  · rw [if_pos hc]
    intro r hr
    simp only [Except.ok.injEq] at hr
    subst hr
    exact getInv_mk _ _
  · rw [if_neg hc]
    cases send0 with
    | connErr => intro r hr; simp at hr
    | otherErr => intro r hr; simp at hr
    | sendOk => exact getLoop_acq pt memoryLimit sched stream _ _ _ _

theorem streamFinalBlock_acq {T : Type} (buf : ReceiveBuffer) (stream : List Nat)
    (total : Int) (recs : List (Record T)) :
    SumAcqOkStream (streamFinalBlock buf stream total recs).2 := by
  unfold streamFinalBlock
  cases hh : handleResponse buf 8 with
  | error e => intro r hr; simp at hr
  | ok q =>
    obtain ⟨resp?, buf2⟩ := q
    cases resp? with
    | none => intro r hr; simp at hr
    | some hv =>
      obtain ⟨hdr, vals⟩ := hv
      dsimp only
      by_cases hok : hdr.isOk = true
      · rw [if_pos hok]
        cases vals with
        | nil => intro r hr; simp at hr
        | cons v vs =>
          intro r hr
          simp only [Except.ok.injEq, Sum.inl.injEq] at hr
          subst hr
          exact acqInv_ok _
      · rw [if_neg hok]
        intro r hr
        simp only [Except.ok.injEq, Sum.inl.injEq] at hr
        subst hr
        exact acqInv_mk _

theorem streamParseBlock_acq {T : Type} (pt : PayloadType T) (memoryLimit : Option Int)
    (buf : ReceiveBuffer) (recs : List (Record T)) (stream : List Nat) (total : Int) :
    SumAcqOkStream (streamParseBlock pt memoryLimit buf recs stream total).2 := by
  unfold streamParseBlock
  cases hp : parseRecords buf recs pt memoryLimit with
  | error e => intro r hr; simp at hr
  | ok p =>
    obtain ⟨st, buf2, recs2⟩ := p
    cases st with
    | NEEDS_MORE_BYTES =>
      dsimp only
      by_cases hat : isAtMemoryLimit memoryLimit total = true
      · rw [if_pos hat]
        by_cases he : recs2.isEmpty = true
        · rw [if_pos he]
          intro r hr
          simp only [Except.ok.injEq, Sum.inl.injEq] at hr
          subst hr
          exact acqInv_mk _
        · rw [if_neg he]
          intro r hr
          simp at hr
      · rw [if_neg hat]
        intro r hr
        simp at hr
    | FINISHED =>
      dsimp only
      by_cases he : recs2.isEmpty = true
      · rw [if_pos he]
        exact streamFinalBlock_acq buf2 stream total []
      · rw [if_neg he]
        exact streamFinalBlock_acq buf2 stream 0 []
    | UNPARSEABLE =>
      intro r hr
      simp only [Except.ok.injEq, Sum.inl.injEq] at hr
      subst hr
      exact acqInv_mk _
    | RECORD_TOO_BIG =>
      intro r hr
      simp only [Except.ok.injEq, Sum.inl.injEq] at hr
      subst hr
      exact acqInv_mk _

theorem streamStep_acq {T : Type} (pt : PayloadType T) (memoryLimit : Option Int)
    (schedN : Nat) (stream : List Nat) (stage : GetStage) (total : Int)
    (buf : ReceiveBuffer) (recs : List (Record T)) :
    SumAcqOkStream (streamStep pt memoryLimit schedN stream stage total buf recs).2 := by
  unfold streamStep
  cases hf : feedBuffer buf (streamFeedLimit memoryLimit total) stream schedN with
  | error e => intro r hr; simp at hr
  | ok p =>
    obtain ⟨n, buf1, stream1⟩ := p
    dsimp only
    by_cases hn : n = 0
    · rw [if_pos hn]
      intro r hr
      simp only [Except.ok.injEq, Sum.inl.injEq] at hr
      subst hr
      exact acqInv_mk _
    · rw [if_neg hn]
      cases stage with
      | RECORDS_PARSING => exact streamParseBlock_acq pt memoryLimit buf1 recs stream1 _
      | FINAL_HEADER => exact streamFinalBlock_acq buf1 stream1 _ recs
      | INITIAL_HEADER =>
        cases hh : handleResponse buf1 0 with
        | error e => intro r hr; simp at hr
        | ok q =>
          obtain ⟨resp?, buf2⟩ := q
          cases resp? with
          | none => intro r hr; simp at hr
          | some hv =>
            obtain ⟨hdr, rest⟩ := hv
            dsimp only
            by_cases hok : ¬ hdr.isOk = true
            · rw [if_pos hok]
              intro r hr
              simp only [Except.ok.injEq, Sum.inl.injEq] at hr
              subst hr
              exact acqInv_mk _
            · rw [if_neg hok]
              exact streamParseBlock_acq pt memoryLimit buf2 recs stream1 _

theorem streamLoop_acq {T : Type} (pt : PayloadType T) (memoryLimit : Option Int) :
    ∀ (sched stream : List Nat) (stage : GetStage) (total : Int) (buf : ReceiveBuffer)
      (recs : List (Record T)),
      ExceptAcqOk (streamLoop pt memoryLimit sched stream stage total buf recs).2 := by
  intro sched
  induction sched with
  | nil =>
    intro stream stage total buf recs
    rw [streamLoop]
    cases hf : feedBuffer buf (streamFeedLimit memoryLimit total) stream 0 with
    | error e => intro r hr; simp at hr
    | ok p =>
      intro r hr
      simp only [Except.ok.injEq] at hr
      subst hr
      exact acqInv_mk _
  | cons schedN sched ih =>
    intro stream stage total buf recs
    rw [streamLoop]
    rcases hstep : streamStep pt memoryLimit schedN stream stage total buf recs with
      ⟨calls, sout⟩
    cases sout with
    | error e => intro r hr; simp at hr
    | ok o =>
      cases o with
      | inl r0 =>
        intro r hr
        simp only [Except.ok.injEq] at hr
        subst hr
        have := streamStep_acq pt memoryLimit schedN stream stage total buf recs
        rw [hstep] at this
        exact this r0 rfl
      | inr st =>
        obtain ⟨stream1, stage1, total1, buf1, recs1⟩ := st
        exact ih stream1 stage1 total1 buf1 recs1

theorem streamRun_acq {T : Type} (connected : Bool) (send0 : SendRes) (pt : PayloadType T)
    (memoryLimit : Option Int) (recvBufferSize : Int) (sched stream : List Nat) :
    ExceptAcqOk (streamRun connected send0 pt memoryLimit recvBufferSize sched stream).2 := by
  unfold streamRun
  by_cases hc : ¬ connected = true
  · rw [if_pos hc]
    intro r hr
    simp only [Except.ok.injEq] at hr
    subst hr
    exact acqInv_mk _
  · rw [if_neg hc]
    cases send0 with
    | connErr => intro r hr; simp at hr
    | otherErr => intro r hr; simp at hr
    | sendOk => exact streamLoop_acq pt memoryLimit sched stream _ _ _ _

theorem itemsAcqOk_nil {T : Type} : ItemsAcqOk ([] : List (GetItem T)) :=
  fun _ h => absurd h (by simp)

theorem itemsAcqOk_records {T : Type} (rs : List (Record T)) :
    ItemsAcqOk (rs.map GetItem.record) := by
  intro r h
  simp [List.mem_map] at h

theorem itemsAcqOk_append {T : Type} {a b : List (GetItem T)}
    (h1 : ItemsAcqOk a) (h2 : ItemsAcqOk b) : ItemsAcqOk (a ++ b) := by
  intro r h
  rcases List.mem_append.mp h with h | h
  · exact h1 r h
  · exact h2 r h

theorem itemsAcqOk_single {T : Type} (r0 : ResponseAcq) (h : AcqInvalidOnError r0) :
    ItemsAcqOk ([GetItem.response r0] : List (GetItem T)) := by
  intro r hm
  simp only [List.mem_singleton, GetItem.response.injEq] at hm
  subst hm
  exact h

theorem iterFinalBlock_acq {T : Type} (buf : ReceiveBuffer) (stream : List Nat)
    (total : Int) : ItemsAcqOk (iterFinalBlock (T := T) buf stream total).1 := by
  unfold iterFinalBlock
  cases hh : handleResponse buf 8 with
  | error e => exact itemsAcqOk_nil
  | ok q =>
    obtain ⟨resp?, buf2⟩ := q
    cases resp? with
    | none => exact itemsAcqOk_nil
    | some hv =>
      obtain ⟨hdr, vals⟩ := hv
      dsimp only
      by_cases hok : hdr.isOk = true
      · rw [if_pos hok]
        cases vals with
        | nil => exact itemsAcqOk_nil
        | cons v vs => exact itemsAcqOk_single _ (acqInv_ok _)
      · rw [if_neg hok]
        exact itemsAcqOk_single _ (acqInv_mk _)

theorem iterParseBlock_acq {T : Type} (pt : PayloadType T) (memoryLimit : Option Int)
    (buf : ReceiveBuffer) (recs : List (Record T)) (stream : List Nat) (total : Int) :
    ItemsAcqOk (iterParseBlock pt memoryLimit buf recs stream total).1 := by
  unfold iterParseBlock
  cases hp : parseRecords buf recs pt memoryLimit with
  | error e => exact itemsAcqOk_nil
  | ok p =>
    obtain ⟨st, buf2, recs2⟩ := p
    cases st with
    | NEEDS_MORE_BYTES => exact itemsAcqOk_records recs2
    | FINISHED =>
      exact itemsAcqOk_append (itemsAcqOk_records recs2)
        (iterFinalBlock_acq buf2 stream total)
    | UNPARSEABLE =>
      exact itemsAcqOk_append (itemsAcqOk_records recs2)
        (itemsAcqOk_single _ (acqInv_mk _))
    | RECORD_TOO_BIG =>
      exact itemsAcqOk_append (itemsAcqOk_records recs2)
        (itemsAcqOk_single _ (acqInv_mk _))

theorem iterStep_acq {T : Type} (pt : PayloadType T) (memoryLimit : Option Int)
    (schedN : Nat) (stream : List Nat) (stage : GetStage) (total : Int)
    (buf : ReceiveBuffer) (recs : List (Record T)) :
    ItemsAcqOk (iterStep pt memoryLimit schedN stream stage total buf recs).1 := by
  unfold iterStep
  cases hf : feedBuffer buf 0 stream schedN with
  | error e => exact itemsAcqOk_nil
  | ok p =>
    obtain ⟨n, buf1, stream1⟩ := p
    dsimp only
    by_cases hn : n = 0
    · rw [if_pos hn]
      exact itemsAcqOk_append (itemsAcqOk_records recs) (itemsAcqOk_single _ (acqInv_mk _))
    · rw [if_neg hn]
      by_cases hov : isOverMemoryLimit memoryLimit (total + n) = true
      · rw [if_pos hov]
        exact itemsAcqOk_append (itemsAcqOk_records recs) (itemsAcqOk_single _ (acqInv_mk _))
      · rw [if_neg hov]
        cases stage with
        | RECORDS_PARSING => exact iterParseBlock_acq pt memoryLimit buf1 recs stream1 _
        | FINAL_HEADER => exact iterFinalBlock_acq buf1 stream1 _
        | INITIAL_HEADER =>
          cases hh : handleResponse buf1 0 with
          | error e => exact itemsAcqOk_nil
          | ok q =>
            obtain ⟨resp?, buf2⟩ := q
            cases resp? with
            | none => exact itemsAcqOk_nil
            | some hv =>
              obtain ⟨hdr, rest⟩ := hv
              dsimp only
              by_cases hok : ¬ hdr.isOk = true
              · rw [if_pos hok]
                exact itemsAcqOk_single _ (acqInv_mk _)
              · rw [if_neg hok]
                exact iterParseBlock_acq pt memoryLimit buf2 recs stream1 _

theorem iterLoop_acq {T : Type} (pt : PayloadType T) (memoryLimit : Option Int) :
    ∀ (sched stream : List Nat) (stage : GetStage) (total : Int) (buf : ReceiveBuffer)
      (recs : List (Record T)),
      ItemsAcqOk (iterLoop pt memoryLimit sched stream stage total buf recs).1 := by
  intro sched
  induction sched with
  | nil =>
    intro stream stage total buf recs
    rw [iterLoop]
    cases hf : feedBuffer buf 0 stream 0 with
    | error e => exact itemsAcqOk_nil
    | ok p =>
      exact itemsAcqOk_append (itemsAcqOk_records recs) (itemsAcqOk_single _ (acqInv_mk _))
  | cons schedN sched ih =>
    intro stream stage total buf recs
    rw [iterLoop]
    rcases hstep : iterStep pt memoryLimit schedN stream stage total buf recs with
      ⟨items, sout⟩
    have hitems : ItemsAcqOk items := by
      have := iterStep_acq pt memoryLimit schedN stream stage total buf recs
      rw [hstep] at this
      exact this
    cases sout with
    | error e => exact hitems
    | ok o =>
      cases o with
      | none => exact hitems
      | some st =>
        obtain ⟨stream1, stage1, total1, buf1, recs1⟩ := st
        exact itemsAcqOk_append hitems (ih stream1 stage1 total1 buf1 recs1)

theorem iterRun_acq {T : Type} (connected : Bool) (send0 : SendRes) (pt : PayloadType T)
    (memoryLimit : Option Int) (recvBufferSize : Int) (sched stream : List Nat) :
    ItemsAcqOk (iterRun connected send0 pt memoryLimit recvBufferSize sched stream).1 := by
  unfold iterRun
  by_cases hc : ¬ connected = true
  · rw [if_pos hc]
    exact itemsAcqOk_single _ (acqInv_mk _)
  · rw [if_neg hc]
    cases send0 with
    | connErr => exact itemsAcqOk_nil
    | otherErr => exact itemsAcqOk_nil
    | sendOk => exact iterLoop_acq pt memoryLimit sched stream _ _ _ _

/-- Claim C10: in every run of `get_acq`, `get`, `get_stream` and `get_iter`,
every `ResponseAcq` or `ResponseGet` produced with a non-OK status carries
`acq = -1`: no error path ever overrides the dataclass default, so `acq = -1`
is a reliable invalid-acq sentinel whenever the status is not OK. -/
theorem c10_non_ok_responses_carry_invalid_acq :
    (∀ (connected : Bool) (send0 : SendRes) (sched stream : List Nat) (r : ResponseAcq),
      getAcqRun connected send0 sched stream = .ok r → r.status ≠ .OK → r.acq = -1) ∧
    (∀ (T : Type) (pt : PayloadType T) (connected : Bool) (send0 : SendRes)
      (memoryLimit : Option Int) (recvBufferSize : Int) (sched stream : List Nat)
      (r : ResponseGet T),
      getRun connected send0 pt memoryLimit recvBufferSize sched stream = .ok r →
      r.status ≠ .OK → r.acq = -1) ∧
    (∀ (T : Type) (pt : PayloadType T) (connected : Bool) (send0 : SendRes)
      (memoryLimit : Option Int) (recvBufferSize : Int) (sched stream : List Nat)
      (r : ResponseAcq),
      (streamRun connected send0 pt memoryLimit recvBufferSize sched stream).2 = .ok r →
      r.status ≠ .OK → r.acq = -1) ∧
    (∀ (T : Type) (pt : PayloadType T) (connected : Bool) (send0 : SendRes)
      (memoryLimit : Option Int) (recvBufferSize : Int) (sched stream : List Nat)
      (r : ResponseAcq),
      GetItem.response r ∈ (iterRun connected send0 pt memoryLimit recvBufferSize
        sched stream).1 →
      r.status ≠ .OK → r.acq = -1) :=
  ⟨fun connected send0 sched stream r h => getAcqRun_acq connected send0 sched stream r h,
   fun _ pt connected send0 m rb sched stream r h =>
     getRun_acq connected send0 pt m rb sched stream r h,
   fun _ pt connected send0 m rb sched stream r h =>
     streamRun_acq connected send0 pt m rb sched stream r h,
   fun _ pt connected send0 m rb sched stream r h =>
     iterRun_acq connected send0 pt m rb sched stream r h⟩

/-- Claim C10, witness: all four drivers evaluated on a transport that closes
immediately — each produces a non-OK (`DISCONNECTED`) response whose `acq`
is exactly `-1`. -/
theorem c10_witness :
    ({ status := .DISCONNECTED, acq := -1 } : ResponseAcq).acq = -1 ∧
    ({ status := .DISCONNECTED, acq := -1, data := [] } : ResponseGet (List Nat)).acq = -1 ∧
    ({ status := .DISCONNECTED, acq := -1 } : ResponseAcq).acq = -1 ∧
    ({ status := .DISCONNECTED, acq := -1 } : ResponseAcq).acq = -1 :=
  ⟨c10_non_ok_responses_carry_invalid_acq.1 true .sendOk [] []
      { status := .DISCONNECTED, acq := -1 } (by decide) (by decide),
   c10_non_ok_responses_carry_invalid_acq.2.1 (List Nat) bytesPayloadType true .sendOk
      none 64 [] [] { status := .DISCONNECTED, acq := -1, data := [] }
      (by decide) (by decide),
   c10_non_ok_responses_carry_invalid_acq.2.2.1 (List Nat) bytesPayloadType true .sendOk
      none 64 [] [] { status := .DISCONNECTED, acq := -1 } (by decide) (by decide),
   c10_non_ok_responses_carry_invalid_acq.2.2.2 (List Nat) bytesPayloadType true .sendOk
      none 64 [] [] { status := .DISCONNECTED, acq := -1 } (by decide) (by decide)⟩

end TSC
